import Mathlib

/-!
Shallow embedding of the traffic-intersection simulator of this repository.

Main source: src/app.py (tick-based variant with yellow clearance):
Vehicle, Lane, TrafficSignal, Intersection (set_phase / update_yellow_phase),
DynamicPriorityLogic.decide_next_phase, and StreamlitSimulation
(inject_emergency_vehicle / step).  A second, wall-clock variant without a
yellow state lives in src/simulation/engine.py (TrafficSignal / Intersection
.set_signal_state); it is embedded separately in namespace Engine, with
wall-clock times passed as explicit integer arguments.

Modelling conventions:
- Python ticks and creation times are integers, modelled as Int; Python
  floats that only ever hold exact decimal values (weights W1/W2, wait
  times, scores) are modelled as Rat.
- The dictionaries with the fixed key sets PHASES (6 keys) and the lane
  configuration (8 keys) are modelled as records with one field per key,
  together with get/set functions indexed by inductive key types; dict
  iteration order is the declaration order of the literals in app.py.
- random.random() draws inside StreamlitSimulation.step are passed in as
  an explicit argument (one rational draw per lane), so a run of the
  simulator is a function of its sequence of draw vectors.
- The class-global Vehicle._id_counter is carried as a per-simulation
  field next_id (a single simulation instance is modelled).
- TrafficSignal.lanes in app.py aliases the Intersection's Lane objects;
  the embedding therefore keeps lanes only on the Intersection and the
  discharge loop of step iterates over the lane keys of the active phase,
  which is observationally identical.
-/

/-- States of a traffic signal in app.py: the string field
TrafficSignal.state ranges over 'red', 'yellow', 'green'. -/
inductive SigState where
  | red
  | yellow
  | green
deriving DecidableEq, Repr

/-- Lane keys of the configuration list in StreamlitSimulation._setup_intersection,
in declaration order. -/
inductive LaneId where
  | north_straight
  | north_left
  | south_straight
  | south_left
  | east_straight
  | east_left
  | west_straight
  | west_left
deriving DecidableEq, Repr

/-- Phase keys of Intersection.PHASES in app.py, in declaration order. -/
inductive PhaseId where
  | NS_Straight
  | EW_Straight
  | N_Left
  | S_Left
  | E_Left
  | W_Left
deriving DecidableEq, Repr

/-- The string name of a lane, as used for dict keys and Lane.id. -/
def laneName : LaneId → String
  | .north_straight => "north_straight"
  | .north_left => "north_left"
  | .south_straight => "south_straight"
  | .south_left => "south_left"
  | .east_straight => "east_straight"
  | .east_left => "east_left"
  | .west_straight => "west_straight"
  | .west_left => "west_left"

/-- Lane lookup by name: Intersection.get_lane via self.lanes.get(lane_id),
restricted to key validity (a valid key returns the lane, anything else None). -/
def parseLane : String → Option LaneId
  | "north_straight" => some .north_straight
  | "north_left" => some .north_left
  | "south_straight" => some .south_straight
  | "south_left" => some .south_left
  | "east_straight" => some .east_straight
  | "east_left" => some .east_left
  | "west_straight" => some .west_straight
  | "west_left" => some .west_left
  | _ => none

/-- The string name of a phase, the keys of Intersection.PHASES. -/
def phaseName : PhaseId → String
  | .NS_Straight => "NS_Straight"
  | .EW_Straight => "EW_Straight"
  | .N_Left => "N_Left"
  | .S_Left => "S_Left"
  | .E_Left => "E_Left"
  | .W_Left => "W_Left"

/-- Membership test of a name in the PHASES dict (phase_name in self.signals). -/
def parsePhase : String → Option PhaseId
  | "NS_Straight" => some .NS_Straight
  | "EW_Straight" => some .EW_Straight
  | "N_Left" => some .N_Left
  | "S_Left" => some .S_Left
  | "E_Left" => some .E_Left
  | "W_Left" => some .W_Left
  | _ => none

/-- The lane lists of Intersection.PHASES, per phase, in declaration order. -/
def phaseLanes : PhaseId → List LaneId
  | .NS_Straight => [.north_straight, .south_straight]
  | .EW_Straight => [.east_straight, .west_straight]
  | .N_Left => [.north_left]
  | .S_Left => [.south_left]
  | .E_Left => [.east_left]
  | .W_Left => [.west_left]

/-- Iteration order over intersection.lanes.values(): the insertion order of
the configuration list in _setup_intersection. -/
def laneOrder : List LaneId :=
  [.north_straight, .north_left, .south_straight, .south_left,
   .east_straight, .east_left, .west_straight, .west_left]

/-- Iteration order over Intersection.PHASES.items(). -/
def phaseOrder : List PhaseId :=
  [.NS_Straight, .EW_Straight, .N_Left, .S_Left, .E_Left, .W_Left]

/-- Vehicle of app.py: id from the class counter, a type string, an integer
creation tick, and a turn direction string. -/
structure Vehicle where
  id : Nat
  vehicle_type : String
  creation_time : Int
  turn_direction : String
deriving DecidableEq, Repr

/-- Vehicle.is_emergency: vehicle_type in ['ambulance', 'fire_truck', 'police']. -/
def Vehicle.is_emergency (v : Vehicle) : Bool :=
  v.vehicle_type = "ambulance" || v.vehicle_type = "fire_truck" || v.vehicle_type = "police"

/-- Lane of app.py: an id string and a deque of vehicles (head = leftmost). -/
structure Lane where
  id : String
  vehicles : List Vehicle
deriving DecidableEq, Repr

/-- Lane.add_vehicle: deque.append, to the tail. -/
def Lane.add_vehicle (l : Lane) (v : Vehicle) : Lane :=
  { l with vehicles := l.vehicles ++ [v] }

/-- Lane.remove_vehicle: popleft if nonempty else None. -/
def Lane.remove_vehicle (l : Lane) : Option Vehicle × Lane :=
  match l.vehicles with
  | [] => (none, l)
  | v :: rest => (some v, { l with vehicles := rest })

/-- Lane.vehicle_count. -/
def Lane.vehicle_count (l : Lane) : Nat := l.vehicles.length

/-- Lane.get_longest_wait_time: 0 for an empty lane, else
current_time - creation time of the head vehicle (an exact float). -/
def Lane.get_longest_wait_time (l : Lane) (current_time : Int) : ℚ :=
  match l.vehicles with
  | [] => 0
  | v :: _ => ((current_time - v.creation_time : Int) : ℚ)

/-- TrafficSignal of app.py (the lanes field is kept on the intersection,
see the module comment). -/
structure TrafficSignal where
  state : SigState
  min_green_duration : Int
  yellow_duration : Int
  state_start_time : Int
deriving DecidableEq, Repr

/-- TrafficSignal.set_state. -/
def TrafficSignal.set_state (s : TrafficSignal) (st : SigState) (current_time : Int) :
    TrafficSignal :=
  { s with state := st, state_start_time := current_time }

/-- TrafficSignal.is_min_time_passed: for a green signal, whether
current_time - state_start_time is at least min_green_duration; True otherwise. -/
def TrafficSignal.is_min_time_passed (s : TrafficSignal) (current_time : Int) : Bool :=
  if s.state = SigState.green then
    s.min_green_duration ≤ current_time - s.state_start_time
  else
    true

/-- TrafficSignal.is_yellow_time_passed: for a yellow signal, whether
current_time - state_start_time is at least yellow_duration; True otherwise. -/
def TrafficSignal.is_yellow_time_passed (s : TrafficSignal) (current_time : Int) : Bool :=
  if s.state = SigState.yellow then
    s.yellow_duration ≤ current_time - s.state_start_time
  else
    true

/-- The signals dict of Intersection, one TrafficSignal per PHASES key. -/
structure SignalMap where
  nsStraight : TrafficSignal
  ewStraight : TrafficSignal
  nLeft : TrafficSignal
  sLeft : TrafficSignal
  eLeft : TrafficSignal
  wLeft : TrafficSignal
deriving DecidableEq, Repr

def SignalMap.get (m : SignalMap) : PhaseId → TrafficSignal
  | .NS_Straight => m.nsStraight
  | .EW_Straight => m.ewStraight
  | .N_Left => m.nLeft
  | .S_Left => m.sLeft
  | .E_Left => m.eLeft
  | .W_Left => m.wLeft

def SignalMap.set (m : SignalMap) (p : PhaseId) (s : TrafficSignal) : SignalMap :=
  match p with
  | .NS_Straight => { m with nsStraight := s }
  | .EW_Straight => { m with ewStraight := s }
  | .N_Left => { m with nLeft := s }
  | .S_Left => { m with sLeft := s }
  | .E_Left => { m with eLeft := s }
  | .W_Left => { m with wLeft := s }

/-- The loop over self.signals.values() that sets every signal red. -/
def SignalMap.allRed (m : SignalMap) (current_time : Int) : SignalMap :=
  { nsStraight := m.nsStraight.set_state SigState.red current_time
    ewStraight := m.ewStraight.set_state SigState.red current_time
    nLeft := m.nLeft.set_state SigState.red current_time
    sLeft := m.sLeft.set_state SigState.red current_time
    eLeft := m.eLeft.set_state SigState.red current_time
    wLeft := m.wLeft.set_state SigState.red current_time }

/-- The lanes dict of Intersection, one Lane per configuration key. -/
structure LaneMap where
  nsL : Lane
  nlL : Lane
  ssL : Lane
  slL : Lane
  esL : Lane
  elL : Lane
  wsL : Lane
  wlL : Lane
deriving DecidableEq, Repr

def LaneMap.get (m : LaneMap) : LaneId → Lane
  | .north_straight => m.nsL
  | .north_left => m.nlL
  | .south_straight => m.ssL
  | .south_left => m.slL
  | .east_straight => m.esL
  | .east_left => m.elL
  | .west_straight => m.wsL
  | .west_left => m.wlL

def LaneMap.set (m : LaneMap) (k : LaneId) (l : Lane) : LaneMap :=
  match k with
  | .north_straight => { m with nsL := l }
  | .north_left => { m with nlL := l }
  | .south_straight => { m with ssL := l }
  | .south_left => { m with slL := l }
  | .east_straight => { m with esL := l }
  | .east_left => { m with elL := l }
  | .west_straight => { m with wsL := l }
  | .west_left => { m with wlL := l }

/-- Intersection of app.py.  active_phase holds None or a key of PHASES
(every assignment in the source is guarded by membership in self.signals),
so it is modelled as Option PhaseId; next_phase can be handed an arbitrary
request string, so it stays Option String. -/
structure Intersection where
  lanes : LaneMap
  signals : SignalMap
  active_phase : Option PhaseId
  is_in_yellow_phase : Bool
  next_phase : Option String
deriving DecidableEq, Repr

/-- A fresh TrafficSignal as built in Intersection.__init__ (defaults
min_green_duration = 10, yellow_duration = 3, state 'red', start 0). -/
def initSignal : TrafficSignal :=
  { state := SigState.red, min_green_duration := 10, yellow_duration := 3
    state_start_time := 0 }

/-- Intersection.__init__ on the eight-lane configuration of app.py. -/
def initIntersection : Intersection :=
  { lanes :=
      { nsL := { id := "north_straight", vehicles := [] }
        nlL := { id := "north_left", vehicles := [] }
        ssL := { id := "south_straight", vehicles := [] }
        slL := { id := "south_left", vehicles := [] }
        esL := { id := "east_straight", vehicles := [] }
        elL := { id := "east_left", vehicles := [] }
        wsL := { id := "west_straight", vehicles := [] }
        wlL := { id := "west_left", vehicles := [] } }
    signals :=
      { nsStraight := initSignal, ewStraight := initSignal, nLeft := initSignal
        sLeft := initSignal, eLeft := initSignal, wLeft := initSignal }
    active_phase := none
    is_in_yellow_phase := false
    next_phase := none }

/-- The tail of Intersection.set_phase shared by its fall-through cases:
set every signal red and, if the request is a PHASES key, turn it green
and make it active (ending any yellow clearance). -/
def Intersection.activate_new (it : Intersection) (phase_name : Option String)
    (current_time : Int) : Intersection :=
  let it2 := { it with signals := it.signals.allRed current_time }
  match phase_name.bind parsePhase with
  | some p =>
    { it2 with
        signals := it2.signals.set p
          ((it2.signals.get p).set_state SigState.green current_time)
        active_phase := some p
        is_in_yellow_phase := false
        next_phase := none }
  | none => it2

/-- Intersection.set_phase of app.py.  The argument is Option String because
update_yellow_phase passes self.next_phase (which is Optional); external
callers pass some name.  The three blocks of the source in order:
early return when the request names the active phase; if a phase is active
and not in yellow clearance, refuse before minimum green, else switch the
active signal to yellow and remember the request in next_phase; otherwise
fall through to activate_new. -/
def Intersection.set_phase (it : Intersection) (phase_name : Option String)
    (current_time : Int) : Intersection :=
  if it.active_phase.map phaseName = phase_name then it
  else
    match it.active_phase, it.is_in_yellow_phase with
    | some a, false =>
      if (it.signals.get a).is_min_time_passed current_time then
        { it with
            signals := it.signals.set a
              ((it.signals.get a).set_state SigState.yellow current_time)
            is_in_yellow_phase := true
            next_phase := phase_name }
      else it
    | _, _ => it.activate_new phase_name current_time

/-- Intersection.update_yellow_phase of app.py. -/
def Intersection.update_yellow_phase (it : Intersection) (current_time : Int) :
    Intersection :=
  if it.is_in_yellow_phase = false ∨ it.active_phase = none then it
  else
    match it.active_phase with
    | none => it
    | some a =>
      if (it.signals.get a).is_yellow_time_passed current_time then
        it.set_phase it.next_phase current_time
      else it

/-- Python round() with ndigits applied to an exact value: round half to even. -/
def pyRound (x : ℚ) : Int :=
  let f : Int := ⌊x⌋
  let r : ℚ := x - (f : ℚ)
  if r < 1/2 then f
  else if 1/2 < r then f + 1
  else if f % 2 = 0 then f else f + 1

/-- round(value, 2) of Python on an exact value. -/
def round2 (x : ℚ) : ℚ := ((pyRound (x * 100) : Int) : ℚ) / 100

/-- Whether the first vehicle in the queue is an emergency vehicle
(lane.vehicles and lane.vehicles[0].is_emergency). -/
def emergency_head (l : Lane) : Bool :=
  match l.vehicles with
  | [] => false
  | v :: _ => v.is_emergency

/-- DynamicPriorityLogic.MAX_WAIT_THRESHOLD, the starvation threshold. -/
def DynamicPriorityLogic.MAX_WAIT_THRESHOLD : ℚ := 120

/-- The per-phase score accumulation of decide_next_phase step 3:
for each lane of the phase, add vehicle_count * W1 and longest wait * W2. -/
def scoreOfPhase (W1 W2 : ℚ) (it : Intersection) (current_time : Int) (p : PhaseId) : ℚ :=
  (phaseLanes p).foldl
    (fun acc l =>
      acc + ((it.lanes.get l).vehicle_count : ℚ) * W1
          + (it.lanes.get l).get_longest_wait_time current_time * W2)
    0

/-- The loop over PHASES.items() in decide_next_phase step 3: an early return
of the active phase when its minimum green has not passed (Except.error),
otherwise the accumulated association list of rounded scores (Except.ok). -/
def score_loop (W1 W2 : ℚ) (it : Intersection) (current_time : Int) :
    List PhaseId → List (PhaseId × ℚ) → Except String (List (PhaseId × ℚ))
  | [], acc => Except.ok acc
  | p :: rest, acc =>
    if it.active_phase = some p ∧ ¬ ((it.signals.get p).is_min_time_passed current_time) then
      Except.error (phaseName p)
    else
      score_loop W1 W2 it current_time rest
        (acc ++ [(p, round2 (scoreOfPhase W1 W2 it current_time p))])

/-- The fold computed by max(scores, key=scores.get) on a nonempty
association list: keep the current best, replace it only on a strictly
greater value, so the first key attaining the maximum wins. -/
def pyMaxFold (x : PhaseId × ℚ) (xs : List (PhaseId × ℚ)) : PhaseId × ℚ :=
  xs.foldl (fun b y => if b.2 < y.2 then y else b) x

/-- DynamicPriorityLogic.decide_next_phase of app.py.
Step 1 scans intersection.lanes.values() for the first lane whose longest
wait exceeds MAX_WAIT_THRESHOLD and, if found, scans PHASES for a phase
containing it (falling through when none does).  Step 2 scans PHASES for
the first phase one of whose lanes has an emergency vehicle at its head.
Step 3 loops over PHASES, returning the active phase early when its
minimum green has not passed, else collecting rounded scores; the result
is the first phase of maximal score, or the first PHASES key if no scores
were collected. -/
def DynamicPriorityLogic.decide_next_phase (W1 W2 : ℚ) (it : Intersection)
    (current_time : Int) : String :=
  match (laneOrder.find? (fun l =>
        DynamicPriorityLogic.MAX_WAIT_THRESHOLD <
          (it.lanes.get l).get_longest_wait_time current_time)).bind
      (fun l => (phaseOrder.find? (fun p => (phaseLanes p).contains l)).map phaseName) with
  | some answer => answer
  | none =>
    match phaseOrder.find? (fun p => (phaseLanes p).any (fun l => emergency_head (it.lanes.get l))) with
    | some p => phaseName p
    | none =>
      match score_loop W1 W2 it current_time phaseOrder [] with
      | Except.error answer => answer
      | Except.ok [] => phaseName PhaseId.NS_Straight
      | Except.ok (x :: xs) => phaseName (pyMaxFold x xs).1

/-- An entry of StreamlitSimulation.event_log. -/
structure DischargeEvent where
  time_step : Int
  vehicle_id : Nat
  origin_lane : String
  wait_time : Int
deriving DecidableEq, Repr

/-- StreamlitSimulation of app.py (one instance; the class-global vehicle
id counter is the field next_id maintained per instance). -/
structure Sim where
  logic_mode : String
  profile : List (LaneId × ℚ)
  intersection : Intersection
  W1 : ℚ
  W2 : ℚ
  current_time : Int
  dumb_timer_cycle : List String
  dumb_timer_duration : Int
  dumb_timer_last_switch : Int
  dumb_timer_current_index : Nat
  total_cars_passed : Nat
  total_wait_time : ℚ
  event_log : List DischargeEvent
  next_id : Nat
deriving DecidableEq, Repr

/-- StreamlitSimulation.__init__. -/
def mkSim (logic_mode : String) (profile : List (LaneId × ℚ)) (dumb_duration : Int)
    (car_weight wait_time_weight : ℚ) : Sim :=
  { logic_mode := logic_mode
    profile := profile
    intersection := initIntersection
    W1 := car_weight
    W2 := wait_time_weight
    current_time := 0
    dumb_timer_cycle := phaseOrder.map phaseName
    dumb_timer_duration := dumb_duration
    dumb_timer_last_switch := 0
    dumb_timer_current_index := 0
    total_cars_passed := 0
    total_wait_time := 0
    event_log := []
    next_id := 0 }

/-- The Balanced Flow spawn profile of app.py. -/
def balancedFlow : List (LaneId × ℚ) :=
  [(.north_straight, mkRat 1 10), (.north_left, mkRat 1 20),
   (.south_straight, mkRat 1 10), (.south_left, mkRat 1 20),
   (.east_straight, mkRat 1 10), (.east_left, mkRat 1 20),
   (.west_straight, mkRat 1 10), (.west_left, mkRat 1 20)]

/-- The turn direction computed at spawn time:
'left' if 'left' in lane_id else 'straight'. -/
def laneTurn : LaneId → String
  | .north_left => "left"
  | .south_left => "left"
  | .east_left => "left"
  | .west_left => "left"
  | _ => "straight"

/-- StreamlitSimulation.inject_emergency_vehicle: a no-op for an unknown
lane key, otherwise appendleft of a fresh vehicle of the given type created
at the current tick. -/
def Sim.inject_emergency_vehicle (s : Sim) (lane_id : String) (ev_type : String) : Sim :=
  match parseLane lane_id with
  | none => s
  | some l =>
    let v : Vehicle :=
      { id := s.next_id + 1, vehicle_type := ev_type
        creation_time := s.current_time, turn_direction := "straight" }
    { s with
        next_id := s.next_id + 1
        intersection :=
          { s.intersection with
              lanes := s.intersection.lanes.set l
                { s.intersection.lanes.get l with
                    vehicles := v :: (s.intersection.lanes.get l).vehicles } } }

/-- One successful spawn draw of step: append a fresh car created at the
current tick to the lane. -/
def Sim.spawn_one (s : Sim) (l : LaneId) : Sim :=
  let v : Vehicle :=
    { id := s.next_id + 1, vehicle_type := "car"
      creation_time := s.current_time, turn_direction := laneTurn l }
  { s with
      next_id := s.next_id + 1
      intersection :=
        { s.intersection with
            lanes := s.intersection.lanes.set l
              ((s.intersection.lanes.get l).add_vehicle v) } }

/-- The spawning loop of step over self.profile.items(): one Bernoulli draw
per lane, passed in as the rational value of random.random() for that lane. -/
def spawn_loop (rand : LaneId → ℚ) : List (LaneId × ℚ) → Sim → Sim
  | [], s => s
  | (l, prob) :: rest, s =>
    if rand l < prob then spawn_loop rand rest (s.spawn_one l)
    else spawn_loop rand rest s

/-- One lane of the discharge block of step: pop the head of the lane if
any, count it, accumulate its wait and log the event. -/
def Sim.discharge_one (s : Sim) (l : LaneId) : Sim :=
  match (s.intersection.lanes.get l).remove_vehicle with
  | (none, _) => s
  | (some v, lane2) =>
    let wait : Int := s.current_time - v.creation_time
    { s with
        intersection :=
          { s.intersection with lanes := s.intersection.lanes.set l lane2 }
        total_cars_passed := s.total_cars_passed + 1
        total_wait_time := s.total_wait_time + (wait : ℚ)
        event_log := s.event_log ++
          [{ time_step := s.current_time, vehicle_id := v.id
             origin_lane := (s.intersection.lanes.get l).id, wait_time := wait }] }

/-- The discharge loop of step over the lanes of the active green phase. -/
def discharge_loop : List LaneId → Sim → Sim
  | [], s => s
  | l :: rest, s => discharge_loop rest (s.discharge_one l)

/-- Block 3 of StreamlitSimulation.step: obtain the requested phase from
the active strategy (dynamic logic in 'ai' mode, the round-robin timer
otherwise) and call set_phase on it. -/
def Sim.request_phase_step (s2 : Sim) : Sim :=
  if s2.logic_mode = "ai" then
    let best_phase :=
      DynamicPriorityLogic.decide_next_phase s2.W1 s2.W2 s2.intersection s2.current_time
    if best_phase ≠ "" then
      { s2 with intersection := s2.intersection.set_phase (some best_phase) s2.current_time }
    else s2
  else
    if s2.dumb_timer_duration ≤ s2.current_time - s2.dumb_timer_last_switch then
      let idx := (s2.dumb_timer_current_index + 1) % s2.dumb_timer_cycle.length
      { s2 with
          dumb_timer_last_switch := s2.current_time
          dumb_timer_current_index := idx
          intersection :=
            s2.intersection.set_phase (some (s2.dumb_timer_cycle.getD idx "")) s2.current_time }
    else s2

/-- Block 4 of StreamlitSimulation.step: when the active phase is green,
discharge one vehicle from each of its lanes. -/
def Sim.discharge_step (s3 : Sim) : Sim :=
  match s3.intersection.active_phase with
  | none => s3
  | some p =>
    if (s3.intersection.signals.get p).state = SigState.green then
      discharge_loop (phaseLanes p) s3
    else s3

/-- Blocks 2 to 4 of StreamlitSimulation.step, run when no yellow
clearance is pending: spawn per the profile, request a phase, discharge. -/
def Sim.step_core (s1 : Sim) (rand : LaneId → ℚ) : Sim :=
  ((spawn_loop rand s1.profile s1).request_phase_step).discharge_step

/-- The final self.current_time += 1 of StreamlitSimulation.step. -/
def Sim.tick (s : Sim) : Sim := { s with current_time := s.current_time + 1 }

/-- StreamlitSimulation.step of app.py: update the yellow clearance first
and stop there (advancing the tick only) while it is still running;
otherwise spawn vehicles per the profile, request a phase, discharge from
the active green phase, and advance the tick. -/
def Sim.step (s0 : Sim) (rand : LaneId → ℚ) : Sim :=
  let s1 := { s0 with intersection := s0.intersection.update_yellow_phase s0.current_time }
  if s1.intersection.is_in_yellow_phase then s1.tick
  else (s1.step_core rand).tick

/-- The phase of Intersection.PHASES containing a given lane (each lane of
the configuration belongs to exactly one phase). -/
def phaseContaining : LaneId → PhaseId
  | .north_straight => .NS_Straight
  | .south_straight => .NS_Straight
  | .east_straight => .EW_Straight
  | .west_straight => .EW_Straight
  | .north_left => .N_Left
  | .south_left => .S_Left
  | .east_left => .E_Left
  | .west_left => .W_Left

/-- The first key of maximal value in a nonempty association list, ties
broken in favour of the earliest entry: the deterministic argmax described
by the spec for the weighted-score rule. -/
def argmaxSpec (x : PhaseId × ℚ) (xs : List (PhaseId × ℚ)) : PhaseId × ℚ :=
  ((x :: xs).find? (fun y => y.2 = xs.foldl (fun acc y => max acc y.2) x.2)).getD x

/-- Modelled from the spec (section 4.4): the decision algorithm as the spec
words it, four rules evaluated in strict priority order with the first match
winning; rule 3 (stickiness) is a separate step before any score is
computed, and rule 4 returns the first phase in declaration order among
the phases of maximal rounded score. -/
def decideSpec (W1 W2 : ℚ) (it : Intersection) (current_time : Int) : String :=
  match laneOrder.find? (fun l =>
      DynamicPriorityLogic.MAX_WAIT_THRESHOLD <
        (it.lanes.get l).get_longest_wait_time current_time) with
  | some l => phaseName (phaseContaining l)
  | none =>
    match phaseOrder.find? (fun p =>
        (phaseLanes p).any (fun l => emergency_head (it.lanes.get l))) with
    | some p => phaseName p
    | none =>
      let sticky :=
        match it.active_phase with
        | some a =>
          if (it.signals.get a).is_min_time_passed current_time then none else some a
        | none => none
      match sticky with
      | some a => phaseName a
      | none =>
        match phaseOrder.map (fun p => (p, round2 (scoreOfPhase W1 W2 it current_time p))) with
        | [] => phaseName PhaseId.NS_Straight
        | x :: xs => phaseName (argmaxSpec x xs).1

namespace Engine

/-- Directions of the main.py configuration for the engine.py intersection. -/
inductive Direction where
  | north
  | south
  | east
  | west
deriving DecidableEq, Repr

/-- TrafficSignal of src/simulation/engine.py: no yellow state, wall-clock
green start (None while red).  Wall-clock instants are modelled as integers
passed explicitly to each call. -/
structure TrafficSignal where
  state : SigState
  min_green_duration : Int
  green_start_time : Option Int
deriving DecidableEq, Repr

/-- TrafficSignal.turn_green of engine.py. -/
def TrafficSignal.turn_green (s : TrafficSignal) (now : Int) : TrafficSignal :=
  { s with state := SigState.green, green_start_time := some now }

/-- TrafficSignal.turn_red of engine.py. -/
def TrafficSignal.turn_red (s : TrafficSignal) : TrafficSignal :=
  { s with state := SigState.red, green_start_time := none }

/-- Python truthiness of the green_start_time field: None is falsy, and so
is the instant 0. -/
def timeTruthy : Option Int → Bool
  | none => false
  | some g => g ≠ 0

/-- TrafficSignal.is_min_time_passed of engine.py: strictly more than
min_green_duration elapsed, checked only when green with a truthy start. -/
def TrafficSignal.is_min_time_passed (s : TrafficSignal) (now : Int) : Bool :=
  if s.state = SigState.green ∧ timeTruthy s.green_start_time then
    s.min_green_duration < now - s.green_start_time.getD 0
  else true

/-- The signals dict of engine.py's Intersection on the main.py
configuration (one signal per direction). -/
structure SignalMap where
  north : TrafficSignal
  south : TrafficSignal
  east : TrafficSignal
  west : TrafficSignal
deriving DecidableEq, Repr

def SignalMap.get (m : SignalMap) : Direction → TrafficSignal
  | .north => m.north
  | .south => m.south
  | .east => m.east
  | .west => m.west

def SignalMap.set (m : SignalMap) (d : Direction) (s : TrafficSignal) : SignalMap :=
  match d with
  | .north => { m with north := s }
  | .south => { m with south := s }
  | .east => { m with east := s }
  | .west => { m with west := s }

/-- The loop of set_signal_state turning every signal of another direction red. -/
def SignalMap.redExcept (m : SignalMap) (d : Direction) : SignalMap :=
  { north := if Direction.north = d then m.north else m.north.turn_red
    south := if Direction.south = d then m.south else m.south.turn_red
    east := if Direction.east = d then m.east else m.east.turn_red
    west := if Direction.west = d then m.west else m.west.turn_red }

/-- Intersection of engine.py (lanes are never touched by
set_signal_state and are omitted here). -/
structure Intersection where
  signals : SignalMap
  active_direction : Option Direction
deriving DecidableEq, Repr

/-- A fresh signal of engine.py: red, min_green_duration 10, no start time. -/
def initSignal : TrafficSignal :=
  { state := SigState.red, min_green_duration := 10, green_start_time := none }

/-- Intersection.__init__ of engine.py on the main.py configuration. -/
def initIntersection : Intersection :=
  { signals := { north := initSignal, south := initSignal
                 east := initSignal, west := initSignal }
    active_direction := none }

/-- Intersection.set_signal_state of engine.py, called with state 'green'
(any other state raises ValueError in the source and is not modelled):
a no-op when the requested direction is already active and its minimum
green has not passed; otherwise every other signal turns red and the
requested one turns green immediately. -/
def Intersection.set_signal_state (it : Intersection) (direction : Direction)
    (now : Int) : Intersection :=
  if it.active_direction = some direction ∧
      ¬ (it.signals.get direction).is_min_time_passed now then it
  else
    { signals := (it.signals.redExcept direction).set direction
        ((it.signals.get direction).turn_green now)
      active_direction := some direction }

end Engine

theorem sigMap_get_set (m : SignalMap) (p q : PhaseId) (s : TrafficSignal) :
    (m.set p s).get q = if q = p then s else m.get q := by
  cases p <;> cases q <;> simp [SignalMap.set, SignalMap.get]

theorem SignalMap.get_allRed (m : SignalMap) (t : Int) (p : PhaseId) :
    (m.allRed t).get p = (m.get p).set_state SigState.red t := by
  cases p <;> rfl

theorem laneMap_get_set (m : LaneMap) (k j : LaneId) (l : Lane) :
    (m.set k l).get j = if j = k then l else m.get j := by
  cases k <;> cases j <;> simp [LaneMap.set, LaneMap.get]

theorem mem_phaseOrder (p : PhaseId) : p ∈ phaseOrder := by
  cases p <;> simp [phaseOrder]

theorem mem_laneOrder (l : LaneId) : l ∈ laneOrder := by
  cases l <;> simp [laneOrder]

theorem mem_phaseLanes_phaseContaining (l : LaneId) : l ∈ phaseLanes (phaseContaining l) := by
  cases l <;> simp [phaseLanes, phaseContaining]

theorem phaseName_injective (p q : PhaseId) (h : phaseName p = phaseName q) : p = q := by
  cases p <;> cases q <;> first | rfl | simp [phaseName] at h

theorem find_phase_containing (l : LaneId) :
    phaseOrder.find? (fun p => (phaseLanes p).contains l) = some (phaseContaining l) := by
  cases l <;> rfl

theorem find_phase_containing_mem (l : LaneId) :
    phaseOrder.find? (fun p => decide (l ∈ phaseLanes p)) = some (phaseContaining l) := by
  cases l <;> rfl

theorem le_foldl_max (xs : List (PhaseId × ℚ)) :
    ∀ a : ℚ, a ≤ xs.foldl (fun acc y => max acc y.2) a := by
  induction xs with
  | nil => intro a; simp
  | cons y ys ih => intro a; exact le_trans (le_max_left a y.2) (ih (max a y.2))

theorem pyMaxFold_eq_find_max (xs : List (PhaseId × ℚ)) :
    ∀ x, (x :: xs).find? (fun y => y.2 = xs.foldl (fun acc y => max acc y.2) x.2) =
      some (pyMaxFold x xs) := by
  induction xs with
  | nil =>
    intro x
    simp [pyMaxFold]
  | cons y ys ih =>
    intro x
    by_cases h : x.2 < y.2
    · have hmax : max x.2 y.2 = y.2 := max_eq_right h.le
      have hxne : ¬ (x.2 = ys.foldl (fun acc y => max acc y.2) y.2) := by
        have : y.2 ≤ ys.foldl (fun acc y => max acc y.2) y.2 := le_foldl_max ys y.2
        exact ne_of_lt (lt_of_lt_of_le h this)
      have hfold : pyMaxFold x (y :: ys) = pyMaxFold y ys := by
        simp [pyMaxFold, List.foldl_cons, h]
      rw [hfold]
      have := ih y
      simp only [List.foldl_cons, hmax]
      rw [List.find?_cons_of_neg, this]
      simp [hxne]
    · have hy : y.2 ≤ x.2 := le_of_not_lt h
      have hmax : max x.2 y.2 = x.2 := max_eq_left hy
      have hfold : pyMaxFold x (y :: ys) = pyMaxFold x ys := by
        simp [pyMaxFold, List.foldl_cons, h]
      rw [hfold]
      simp only [List.foldl_cons, hmax]
      by_cases hx : x.2 = ys.foldl (fun acc y => max acc y.2) x.2
      · have h1 : List.find? (fun y => decide (y.2 = ys.foldl (fun acc y => max acc y.2) x.2))
            (x :: y :: ys) = some x := List.find?_cons_of_pos _ (by simpa using hx)
        have h2 := ih x
        rw [List.find?_cons_of_pos _ (by simpa using hx)] at h2
        rw [h1, ← h2]
      · have hxle : x.2 ≤ ys.foldl (fun acc y => max acc y.2) x.2 := le_foldl_max ys x.2
        have hyne : ¬ (y.2 = ys.foldl (fun acc y => max acc y.2) x.2) := by
          intro hc
          exact hx (le_antisymm hxle (hc ▸ hy))
        have h2 := ih x
        rw [List.find?_cons_of_neg _ (by simpa using hx)] at h2
        rw [List.find?_cons_of_neg _ (by simpa using hx),
            List.find?_cons_of_neg _ (by simpa using hyne)]
        exact h2

theorem argmaxSpec_eq_pyMaxFold (x : PhaseId × ℚ) (xs : List (PhaseId × ℚ)) :
    argmaxSpec x xs = pyMaxFold x xs := by
  simp [argmaxSpec, pyMaxFold_eq_find_max xs x]

theorem score_loop_no_sticky (W1 W2 : ℚ) (it : Intersection) (t : Int) :
    ∀ (ps : List PhaseId) (acc : List (PhaseId × ℚ)),
      (∀ p ∈ ps, it.active_phase = some p → (it.signals.get p).is_min_time_passed t = true) →
      score_loop W1 W2 it t ps acc =
        Except.ok (acc ++ ps.map (fun p => (p, round2 (scoreOfPhase W1 W2 it t p)))) := by
  intro ps
  induction ps with
  | nil => intro acc _; simp [score_loop]
  | cons p rest ih =>
    intro acc h
    have hp : ¬ (it.active_phase = some p ∧
        ¬ ((it.signals.get p).is_min_time_passed t = true)) := by
      rintro ⟨ha, hb⟩
      exact hb (h p (by simp) ha)
    simp only [score_loop, if_neg hp]
    rw [ih _ (fun q hq => h q (by simp [hq]))]
    simp

theorem score_loop_sticky (W1 W2 : ℚ) (it : Intersection) (t : Int) (a : PhaseId)
    (hs : it.active_phase = some a)
    (hm : ¬ ((it.signals.get a).is_min_time_passed t = true)) :
    ∀ (ps : List PhaseId) (acc : List (PhaseId × ℚ)), a ∈ ps →
      score_loop W1 W2 it t ps acc = Except.error (phaseName a) := by
  intro ps
  induction ps with
  | nil => intro acc h; simp at h
  | cons p rest ih =>
    intro acc hmem
    by_cases hpa : p = a
    · subst hpa
      simp only [score_loop, if_pos (And.intro hs hm)]
    · have hcond : ¬ (it.active_phase = some p ∧
          ¬ ((it.signals.get p).is_min_time_passed t = true)) := by
        rintro ⟨ha, _⟩
        rw [hs] at ha
        exact hpa (Option.some.inj ha).symm
      simp only [score_loop, if_neg hcond]
      rcases List.mem_cons.mp hmem with h | h
      · exact absurd h.symm hpa
      · exact ih _ h

/-- C4: decide_next_phase evaluates its rules in strict priority order with
the first match winning: starvation guard over the earliest starving lane,
then priority-vehicle preemption in phase declaration order, then stickiness
of an active phase below its minimum green, then the argmax of the rounded
weighted scores with ties broken by the first phase in declaration order;
formally, the source decision function coincides with the rule-by-rule
decision function decideSpec written from the spec for every intersection
state, every pair of weights and every tick. -/
theorem C4_decide_matches_spec (W1 W2 : ℚ) (it : Intersection) (t : Int) :
    DynamicPriorityLogic.decide_next_phase W1 W2 it t = decideSpec W1 W2 it t := by
  unfold DynamicPriorityLogic.decide_next_phase decideSpec
  cases h1 : laneOrder.find? (fun l =>
      decide (DynamicPriorityLogic.MAX_WAIT_THRESHOLD <
        (it.lanes.get l).get_longest_wait_time t)) with
  | some l =>
    simp [h1, find_phase_containing_mem l]
  | none =>
    simp only [h1, Option.none_bind]
    cases h2 : phaseOrder.find? (fun p =>
        (phaseLanes p).any (fun l => emergency_head (it.lanes.get l))) with
    | some p => simp [h2]
    | none =>
      simp only [h2]
      cases hA : it.active_phase with
      | none =>
        rw [score_loop_no_sticky W1 W2 it t phaseOrder []
          (fun q _ hq => by rw [hA] at hq; exact absurd hq (by simp))]
        simp only [List.nil_append, hA]
        simp only [phaseOrder, List.map_cons, List.map_nil]
        rw [argmaxSpec_eq_pyMaxFold]
      | some a =>
        by_cases hm : (it.signals.get a).is_min_time_passed t = true
        · rw [score_loop_no_sticky W1 W2 it t phaseOrder []
            (fun q _ hq => by
              rw [hA] at hq
              rw [← Option.some.inj hq]
              exact hm)]
          simp only [List.nil_append, hA, if_pos hm]
          simp only [phaseOrder, List.map_cons, List.map_nil]
          rw [argmaxSpec_eq_pyMaxFold]
        · rw [score_loop_sticky W1 W2 it t a hA hm phaseOrder [] (mem_phaseOrder a)]
          simp only [hA, if_neg hm]

/-- States of one simulation instance reachable by constructing it and then
performing any sequence of step, set_phase, update_yellow_phase and
inject_emergency_vehicle calls, with arbitrary arguments (arbitrary draw
vectors, request names, tick arguments, lane keys and vehicle types). -/
inductive Reach : Sim → Prop where
  | init (logic_mode : String) (profile : List (LaneId × ℚ)) (dumb_duration : Int)
      (car_weight wait_time_weight : ℚ) :
      Reach (mkSim logic_mode profile dumb_duration car_weight wait_time_weight)
  | step (s : Sim) (rand : LaneId → ℚ) : Reach s → Reach (s.step rand)
  | set_phase (s : Sim) (name : String) (t : Int) : Reach s →
      Reach { s with intersection := s.intersection.set_phase (some name) t }
  | update_yellow (s : Sim) (t : Int) : Reach s →
      Reach { s with intersection := s.intersection.update_yellow_phase t }
  | inject (s : Sim) (lane_id ev_type : String) : Reach s →
      Reach (s.inject_emergency_vehicle lane_id ev_type)

/-- The signal invariant maintained by every intersection operation: only
the active phase can hold a non-red signal, and during yellow clearance no
signal at all is green. -/
def SigInv (it : Intersection) : Prop :=
  (∀ p, (it.signals.get p).state ≠ SigState.red → it.active_phase = some p) ∧
  (it.is_in_yellow_phase = true → ∀ p, (it.signals.get p).state ≠ SigState.green)

theorem activate_new_SigInv (it : Intersection) (arg : Option String) (t : Int) :
    SigInv (it.activate_new arg t) := by
  unfold Intersection.activate_new
  rcases arg.bind parsePhase with _ | p
  · refine And.intro ?_ ?_
    · intro q hq
      simp only [SignalMap.get_allRed, TrafficSignal.set_state] at hq
      exact absurd rfl hq
    · intro _ q
      simp [SignalMap.get_allRed, TrafficSignal.set_state]
  · refine And.intro ?_ ?_
    · intro q hq
      simp only [sigMap_get_set] at hq
      by_cases hqp : q = p
      · simp [hqp]
      · rw [if_neg hqp] at hq
        simp [SignalMap.get_allRed, TrafficSignal.set_state] at hq
    · intro hfalse
      simp at hfalse

theorem set_phase_SigInv (it : Intersection) (arg : Option String) (t : Int)
    (h : SigInv it) : SigInv (it.set_phase arg t) := by
  obtain ⟨h1, h2⟩ := h
  unfold Intersection.set_phase
  by_cases hret : it.active_phase.map phaseName = arg
  · simpa [hret] using And.intro h1 h2
  · rw [if_neg hret]
    split
    case _ a hA hY =>
      by_cases hm : (it.signals.get a).is_min_time_passed t = true
      · rw [if_pos hm]
        constructor
        · intro p hp
          simp only [sigMap_get_set] at hp
          by_cases hpa : p = a
          · rw [hpa]; exact hA
          · rw [if_neg hpa] at hp
            exact h1 p hp
        · intro _ p
          simp only [sigMap_get_set]
          by_cases hpa : p = a
          · simp [hpa, TrafficSignal.set_state]
          · rw [if_neg hpa]
            intro hg
            have := h1 p (by rw [hg]; simp)
            rw [hA] at this
            exact hpa (Option.some.inj this).symm
      · rw [if_neg hm]
        exact And.intro h1 h2
    case _ x y hne => exact activate_new_SigInv it arg t

theorem update_yellow_SigInv (it : Intersection) (t : Int)
    (h : SigInv it) : SigInv (it.update_yellow_phase t) := by
  unfold Intersection.update_yellow_phase
  by_cases hc : it.is_in_yellow_phase = false ∨ it.active_phase = none
  · simpa [hc] using h
  · rw [if_neg hc]
    rcases hA : it.active_phase with _ | a
    · exact h
    · by_cases hy : (it.signals.get a).is_yellow_time_passed t = true
      · simpa [hy] using set_phase_SigInv it it.next_phase t h
      · simpa [hy] using h

theorem spawn_loop_shape (rand : LaneId → ℚ) :
    ∀ (items : List (LaneId × ℚ)) (s : Sim), ∃ L n,
      spawn_loop rand items s =
        { s with intersection := { s.intersection with lanes := L }, next_id := n } := by
  intro items
  induction items with
  | nil =>
    intro s
    exact ⟨s.intersection.lanes, s.next_id, rfl⟩
  | cons x rest ih =>
    intro s
    rcases x with ⟨l, prob⟩
    by_cases hc : rand l < prob
    · simp only [spawn_loop, if_pos hc]
      obtain ⟨L, n, heq⟩ := ih (s.spawn_one l)
      exact ⟨L, n, heq⟩
    · simp only [spawn_loop, if_neg hc]
      exact ih s

theorem discharge_one_shape (s : Sim) (l : LaneId) : ∃ L c w e,
    s.discharge_one l =
      { s with intersection := { s.intersection with lanes := L },
               total_cars_passed := c, total_wait_time := w, event_log := e } := by
  unfold Sim.discharge_one
  rcases (s.intersection.lanes.get l).remove_vehicle with ⟨ov, lane2⟩
  rcases ov with _ | v
  · exact ⟨s.intersection.lanes, s.total_cars_passed, s.total_wait_time, s.event_log, rfl⟩
  · exact ⟨_, _, _, _, rfl⟩

theorem discharge_loop_shape :
    ∀ (ks : List LaneId) (s : Sim), ∃ L c w e,
      discharge_loop ks s =
        { s with intersection := { s.intersection with lanes := L },
                 total_cars_passed := c, total_wait_time := w, event_log := e } := by
  intro ks
  induction ks with
  | nil =>
    intro s
    exact ⟨s.intersection.lanes, s.total_cars_passed, s.total_wait_time, s.event_log, rfl⟩
  | cons k rest ih =>
    intro s
    obtain ⟨L1, c1, w1, e1, h1⟩ := discharge_one_shape s k
    obtain ⟨L, c, w, e, h2⟩ := ih (s.discharge_one k)
    refine ⟨L, c, w, e, ?_⟩
    simp only [discharge_loop]
    rw [h2, h1]

theorem inject_shape (s : Sim) (k ty : String) : ∃ L n,
    s.inject_emergency_vehicle k ty =
      { s with intersection := { s.intersection with lanes := L }, next_id := n } := by
  unfold Sim.inject_emergency_vehicle
  rcases parseLane k with _ | l
  · exact ⟨s.intersection.lanes, s.next_id, rfl⟩
  · exact ⟨_, _, rfl⟩

theorem request_phase_step_SigInv (s : Sim) (h : SigInv s.intersection) :
    SigInv s.request_phase_step.intersection := by
  unfold Sim.request_phase_step
  by_cases hm : s.logic_mode = "ai"
  · rw [if_pos hm]
    generalize DynamicPriorityLogic.decide_next_phase s.W1 s.W2 s.intersection
      s.current_time = best
    by_cases hb : best ≠ ""
    · rw [if_pos hb]
      exact set_phase_SigInv _ _ _ h
    · rw [if_neg hb]
      exact h
  · rw [if_neg hm]
    by_cases hd : s.dumb_timer_duration ≤ s.current_time - s.dumb_timer_last_switch
    · rw [if_pos hd]
      exact set_phase_SigInv _ _ _ h
    · rw [if_neg hd]
      exact h

theorem discharge_step_SigInv (s : Sim) (h : SigInv s.intersection) :
    SigInv s.discharge_step.intersection := by
  unfold Sim.discharge_step
  rcases hap : s.intersection.active_phase with _ | p
  · exact h
  · change SigInv (if (s.intersection.signals.get p).state = SigState.green then
      discharge_loop (phaseLanes p) s else s).intersection
    by_cases hg : (s.intersection.signals.get p).state = SigState.green
    · rw [if_pos hg]
      obtain ⟨L, c, w, e, heq⟩ := discharge_loop_shape (phaseLanes p) s
      rw [heq]
      exact h
    · rw [if_neg hg]
      exact h

theorem step_SigInv (s : Sim) (rand : LaneId → ℚ) (h : SigInv s.intersection) :
    SigInv (s.step rand).intersection := by
  unfold Sim.step Sim.step_core Sim.tick
  have h1 : SigInv (s.intersection.update_yellow_phase s.current_time) :=
    update_yellow_SigInv _ _ h
  by_cases hy : ({ s with intersection := s.intersection.update_yellow_phase s.current_time }
      : Sim).intersection.is_in_yellow_phase
  · rw [if_pos hy]
    exact h1
  · rw [if_neg hy]
    obtain ⟨L, n, hsp⟩ := spawn_loop_shape rand
      ({ s with intersection := s.intersection.update_yellow_phase s.current_time } : Sim).profile
      { s with intersection := s.intersection.update_yellow_phase s.current_time }
    rw [hsp]
    apply discharge_step_SigInv
    apply request_phase_step_SigInv
    exact h1

theorem reach_SigInv (s : Sim) (h : Reach s) : SigInv s.intersection := by
  induction h with
  | init logic_mode profile dumb_duration car_weight wait_time_weight =>
    constructor
    · intro p hp
      exfalso
      apply hp
      cases p <;> rfl
    · intro hf
      simp [mkSim, initIntersection] at hf
  | step s rand _ ih => exact step_SigInv s rand ih
  | set_phase s name t _ ih => exact set_phase_SigInv _ _ _ ih
  | update_yellow s t _ ih => exact update_yellow_SigInv _ _ ih
  | inject s k ty _ ih =>
    obtain ⟨L, n, heq⟩ := inject_shape s k ty
    rw [heq]
    exact ih

theorem filter_length_le_one {α : Type} (l : List α) (pred : α → Bool)
    (hnd : l.Nodup) (h : ∀ a b, pred a = true → pred b = true → a = b) :
    (l.filter pred).length ≤ 1 := by
  induction l with
  | nil => simp
  | cons a rest ih =>
    rw [List.nodup_cons] at hnd
    by_cases hp : pred a = true
    · rw [List.filter_cons_of_pos hp]
      have hnil : rest.filter pred = [] := by
        rw [List.filter_eq_nil]
        intro b hb hpb
        exact absurd ((h b a hpb hp) ▸ hb) hnd.1
      simp [hnil]
    · rw [List.filter_cons_of_neg hp]
      exact ih hnd.2

/-- The state reached by constructing a dynamic-logic simulation on the
Balanced Flow profile and requesting NS_Straight at tick 0. -/
def wSim1 : Sim :=
  { mkSim "ai" balancedFlow 20 1 (mkRat 1 2) with
      intersection := (mkSim "ai" balancedFlow 20 1 (mkRat 1 2)).intersection.set_phase
        (some "NS_Straight") 0 }

theorem wSim1_reach : Reach wSim1 :=
  Reach.set_phase _ "NS_Straight" 0 (Reach.init "ai" balancedFlow 20 1 (mkRat 1 2))

/-- C1: in every state reachable by any sequence of step, set_phase,
update_yellow_phase and inject_emergency_vehicle calls, at most one phase's
signal is green, at most one phase's signal is yellow, and every signal
that is neither green nor yellow is red. -/
theorem C1_mutual_exclusion (s : Sim) (h : Reach s) :
    (phaseOrder.filter
      (fun p => (s.intersection.signals.get p).state = SigState.green)).length ≤ 1 ∧
    (phaseOrder.filter
      (fun p => (s.intersection.signals.get p).state = SigState.yellow)).length ≤ 1 ∧
    ∀ p : PhaseId, (s.intersection.signals.get p).state ≠ SigState.green →
      (s.intersection.signals.get p).state ≠ SigState.yellow →
      (s.intersection.signals.get p).state = SigState.red := by
  obtain ⟨h1, _⟩ := reach_SigInv s h
  refine ⟨?_, ?_, ?_⟩
  · refine filter_length_le_one _ _ (by decide) ?_
    intro a b ha hb
    have ha2 : (s.intersection.signals.get a).state = SigState.green := of_decide_eq_true ha
    have hb2 : (s.intersection.signals.get b).state = SigState.green := of_decide_eq_true hb
    have h1a := h1 a (by rw [ha2]; simp)
    have h1b := h1 b (by rw [hb2]; simp)
    rw [h1a] at h1b
    exact Option.some.inj h1b
  · refine filter_length_le_one _ _ (by decide) ?_
    intro a b ha hb
    have ha2 : (s.intersection.signals.get a).state = SigState.yellow := of_decide_eq_true ha
    have hb2 : (s.intersection.signals.get b).state = SigState.yellow := of_decide_eq_true hb
    have h1a := h1 a (by rw [ha2]; simp)
    have h1b := h1 b (by rw [hb2]; simp)
    rw [h1a] at h1b
    exact Option.some.inj h1b
  · intro p hg hy
    cases hst : (s.intersection.signals.get p).state
    · rfl
    · exact absurd hst hy
    · exact absurd hst hg

/-- Witness for C1: the mutual-exclusion conclusion at the concrete
reachable state wSim1. -/
theorem C1_mutual_exclusion_witness :
    (phaseOrder.filter
      (fun p => (wSim1.intersection.signals.get p).state = SigState.green)).length ≤ 1 ∧
    (phaseOrder.filter
      (fun p => (wSim1.intersection.signals.get p).state = SigState.yellow)).length ≤ 1 ∧
    ∀ p : PhaseId, (wSim1.intersection.signals.get p).state ≠ SigState.green →
      (wSim1.intersection.signals.get p).state ≠ SigState.yellow →
      (wSim1.intersection.signals.get p).state = SigState.red :=
  C1_mutual_exclusion wSim1 wSim1_reach

theorem engineSigMap_get_set (m : Engine.SignalMap) (d e : Engine.Direction)
    (s : Engine.TrafficSignal) :
    (m.set d s).get e = if e = d then s else m.get e := by
  cases d <;> cases e <;> simp [Engine.SignalMap.set, Engine.SignalMap.get]

theorem Engine.SignalMap.get_redExcept (m : Engine.SignalMap) (d e : Engine.Direction) :
    (m.redExcept d).get e = if e = d then m.get e else (m.get e).turn_red := by
  cases d <;> cases e <;> simp [Engine.SignalMap.redExcept, Engine.SignalMap.get]

/-- C2 (amended): in the yellow variant (app.py), a green signal never
leaves green before min_green_duration ticks: any set_phase request made
while the elapsed green time is below the floor leaves the whole
intersection unchanged, whatever phase it names.  In the variant without
yellow (engine.py), the floor only guards re-requests of the currently
active direction: a request naming any other direction immediately turns
that other direction green and every remaining signal (including a green
one below the floor) red. -/
theorem C2_min_green_floor_amended :
    (∀ (s : Sim), Reach s → ∀ (p : PhaseId) (name : String) (t : Int),
      (s.intersection.signals.get p).state = SigState.green →
      t - (s.intersection.signals.get p).state_start_time <
        (s.intersection.signals.get p).min_green_duration →
      s.intersection.set_phase (some name) t = s.intersection) ∧
    (∀ (e : Engine.Intersection) (d targ : Engine.Direction) (now : Int),
      e.active_direction ≠ some targ → d ≠ targ →
      ((e.set_signal_state targ now).signals.get d).state = SigState.red ∧
      ((e.set_signal_state targ now).signals.get targ).state = SigState.green) := by
  constructor
  · intro s hr p name t hg ht
    obtain ⟨h1, h2⟩ := reach_SigInv s hr
    have hA : s.intersection.active_phase = some p := h1 p (by rw [hg]; simp)
    have hY : s.intersection.is_in_yellow_phase = false := by
      cases hYv : s.intersection.is_in_yellow_phase
      · rfl
      · exact absurd hg (h2 hYv p)
    have hmp : (s.intersection.signals.get p).is_min_time_passed t = false := by
      simp [TrafficSignal.is_min_time_passed, hg, not_le.mpr ht]
    unfold Intersection.set_phase
    by_cases hret : s.intersection.active_phase.map phaseName = some name
    · rw [if_pos hret]
    · rw [if_neg hret]
      split
      case _ a hAa hYa =>
        have hap : a = p := Option.some.inj (hAa ▸ hA)
        rw [if_neg (by rw [hap, hmp]; simp)]
      case _ x y hne =>
        exact absurd hY (by simpa using hne p hA)
  · intro e d targ now hact hd
    unfold Engine.Intersection.set_signal_state
    rw [if_neg (by intro hcon; exact hact hcon.1)]
    constructor
    · simp [engineSigMap_get_set, hd, Engine.SignalMap.get_redExcept,
        Engine.TrafficSignal.turn_red]
    · simp [engineSigMap_get_set, Engine.TrafficSignal.turn_green]

/-- C2 counterexample: the claim also covers the variant without yellow
(engine.py set_signal_state).  There, after north turns green at instant 0,
a request naming east at instant 1, with only 1 second of the 10-second
minimum green elapsed, is not ignored: north drops to red and east turns
green immediately. -/
theorem C2_min_green_floor_counterexample :
    ((Engine.initIntersection.set_signal_state Engine.Direction.north 0).signals.get
        Engine.Direction.north).state = SigState.green ∧
    (1 : Int) - (0 : Int) < 10 ∧
    (((Engine.initIntersection.set_signal_state Engine.Direction.north 0).set_signal_state
        Engine.Direction.east 1).signals.get Engine.Direction.north).state = SigState.red ∧
    (((Engine.initIntersection.set_signal_state Engine.Direction.north 0).set_signal_state
        Engine.Direction.east 1).signals.get Engine.Direction.east).state = SigState.green := by
  decide

/-- Witness for C2 (amended): the app.py conjunct at the reachable state
wSim1 (NS_Straight green since tick 0, request at tick 5), and the
engine.py conjunct at the state with north green since instant 0 and a
request for east at instant 1. -/
theorem C2_min_green_floor_witness :
    (wSim1.intersection.set_phase (some "EW_Straight") 5 = wSim1.intersection) ∧
    ((((Engine.initIntersection.set_signal_state Engine.Direction.north 0).set_signal_state
        Engine.Direction.east 1).signals.get Engine.Direction.north).state = SigState.red ∧
     (((Engine.initIntersection.set_signal_state Engine.Direction.north 0).set_signal_state
        Engine.Direction.east 1).signals.get Engine.Direction.east).state = SigState.green) :=
  And.intro
    (C2_min_green_floor_amended.1 wSim1 wSim1_reach PhaseId.NS_Straight "EW_Straight" 5
      (by decide) (by decide))
    (C2_min_green_floor_amended.2 (Engine.initIntersection.set_signal_state
        Engine.Direction.north 0) Engine.Direction.north Engine.Direction.east 1
      (by decide) (by decide))

theorem parsePhase_phaseName (p : PhaseId) : parsePhase (phaseName p) = some p := by
  cases p <;> rfl

theorem set_phase_activate (it : Intersection) (nm : String) (q : PhaseId) (t : Int)
    (hret : ¬ it.active_phase.map phaseName = some nm)
    (hY : it.is_in_yellow_phase = true)
    (hq : parsePhase nm = some q) :
    ((it.set_phase (some nm) t).signals.get q).state = SigState.green ∧
    (∀ r, r ≠ q → ((it.set_phase (some nm) t).signals.get r).state = SigState.red) ∧
    (it.set_phase (some nm) t).active_phase = some q ∧
    (it.set_phase (some nm) t).is_in_yellow_phase = false := by
  unfold Intersection.set_phase
  rw [if_neg hret]
  split
  case _ a hAa hYa =>
    rw [hY] at hYa
    cases hYa
  case _ x y hne =>
    unfold Intersection.activate_new
    split
    case _ p2 hp2 =>
      rw [Option.some_bind, hq] at hp2
      have hpq : p2 = q := (Option.some.inj hp2).symm
      subst hpq
      refine ⟨?_, ?_, rfl, rfl⟩
      · simp [sigMap_get_set, TrafficSignal.set_state]
      · intro r hr
        simp [sigMap_get_set, hr, SignalMap.get_allRed, TrafficSignal.set_state]
    case _ hp2 =>
      rw [Option.some_bind, hq] at hp2
      cases hp2

/-- The intersection state with NS_Straight green from tick 0 and a
clearance started at tick 10 by a request for EW_Straight: the NS_Straight
signal is yellow since tick 10 with EW_Straight pending. -/
def wYellow : Intersection :=
  (initIntersection.set_phase (some "NS_Straight") 0).set_phase (some "EW_Straight") 10

/-- C3 (amended): once a signal enters yellow, the clearance driver
update_yellow_phase keeps it yellow strictly before yellow_duration ticks
have elapsed and completes the deferred switch to the pending phase once
they have, and a set_phase request re-naming the active phase is ignored;
but a set_phase call naming any other valid phase during the clearance
ends the clearance immediately, so the yellow floor holds only for runs
whose intervening requests name the active phase (as the step loop
guarantees), not for arbitrary request sequences. -/
theorem C3_yellow_floor_amended (it : Intersection) (a q : PhaseId) (nm : String) (t : Int)
    (hA : it.active_phase = some a)
    (hY : it.is_in_yellow_phase = true)
    (hst : (it.signals.get a).state = SigState.yellow)
    (hnext : it.next_phase = some nm)
    (hq : parsePhase nm = some q)
    (hqa : nm ≠ phaseName a) :
    (t - (it.signals.get a).state_start_time < (it.signals.get a).yellow_duration →
      it.update_yellow_phase t = it) ∧
    ((it.signals.get a).yellow_duration ≤ t - (it.signals.get a).state_start_time →
      ((it.update_yellow_phase t).signals.get q).state = SigState.green ∧
      (∀ r, r ≠ q → ((it.update_yellow_phase t).signals.get r).state = SigState.red) ∧
      (it.update_yellow_phase t).active_phase = some q ∧
      (it.update_yellow_phase t).is_in_yellow_phase = false) ∧
    (it.set_phase (some (phaseName a)) t = it) ∧
    (∀ r : PhaseId, r ≠ a →
      ((it.set_phase (some (phaseName r)) t).signals.get r).state = SigState.green ∧
      (∀ p2, p2 ≠ r →
        ((it.set_phase (some (phaseName r)) t).signals.get p2).state = SigState.red) ∧
      (it.set_phase (some (phaseName r)) t).is_in_yellow_phase = false) := by
  have hcond : ¬ (it.is_in_yellow_phase = false ∨ it.active_phase = none) := by
    rw [hY, hA]
    simp
  have hreta : ∀ r : PhaseId, r ≠ a →
      ¬ it.active_phase.map phaseName = some (phaseName r) := by
    intro r hr hcon
    rw [hA] at hcon
    exact hr (phaseName_injective a r (Option.some.inj hcon)).symm
  refine ⟨?_, ?_, ?_, ?_⟩
  · intro ht
    have hyp : (it.signals.get a).is_yellow_time_passed t = false := by
      simp [TrafficSignal.is_yellow_time_passed, hst, not_le.mpr ht]
    unfold Intersection.update_yellow_phase
    rw [if_neg hcond, hA]
    change (if (it.signals.get a).is_yellow_time_passed t = true then
      it.set_phase it.next_phase t else it) = it
    rw [hyp]
    simp
  · intro ht
    have hyp : (it.signals.get a).is_yellow_time_passed t = true := by
      simp [TrafficSignal.is_yellow_time_passed, hst, ht]
    have hupd : it.update_yellow_phase t = it.set_phase (some nm) t := by
      unfold Intersection.update_yellow_phase
      rw [if_neg hcond, hA]
      change (if (it.signals.get a).is_yellow_time_passed t = true then
        it.set_phase it.next_phase t else it) = it.set_phase (some nm) t
      rw [hyp, hnext]
      simp
    rw [hupd]
    have hret : ¬ it.active_phase.map phaseName = some nm := by
      intro hcon
      rw [hA] at hcon
      exact hqa (Option.some.inj hcon).symm
    obtain ⟨hg, hrest, hact, hyel⟩ := set_phase_activate it nm q t hret hY hq
    exact ⟨hg, hrest, hact, hyel⟩
  · unfold Intersection.set_phase
    rw [if_pos (by rw [hA]; rfl)]
  · intro r hr
    obtain ⟨hg, hrest, _, hyel⟩ :=
      set_phase_activate it (phaseName r) r t (hreta r hr) hY (parsePhase_phaseName r)
    exact ⟨hg, hrest, hyel⟩

/-- C3 counterexample: in wYellow the NS_Straight signal is yellow since
tick 10 with yellow_duration 3, yet a set_phase request naming N_Left at
tick 11 (after only 1 yellow tick) turns NS_Straight red and N_Left green
immediately, so the signal does not stay yellow for exactly yellow_duration
ticks under arbitrary intervening requests, and the pending phase
EW_Straight never turns green. -/
theorem C3_yellow_floor_counterexample :
    (wYellow.signals.get PhaseId.NS_Straight).state = SigState.yellow ∧
    (wYellow.signals.get PhaseId.NS_Straight).state_start_time = 10 ∧
    (wYellow.signals.get PhaseId.NS_Straight).yellow_duration = 3 ∧
    (11 : Int) - (10 : Int) < 3 ∧
    ((wYellow.set_phase (some "N_Left") 11).signals.get
      PhaseId.NS_Straight).state = SigState.red ∧
    ((wYellow.set_phase (some "N_Left") 11).signals.get
      PhaseId.N_Left).state = SigState.green ∧
    ((wYellow.set_phase (some "N_Left") 11).signals.get
      PhaseId.EW_Straight).state = SigState.red := by
  decide

/-- Witness for C3 (amended) at the concrete clearance state wYellow:
still yellow at tick 12, switched to the pending EW_Straight at tick 13,
a re-request of the active phase ignored, and an N_Left request aborting
the clearance. -/
theorem C3_yellow_floor_witness :
    (wYellow.update_yellow_phase 12 = wYellow) ∧
    ((wYellow.update_yellow_phase 13).signals.get
      PhaseId.EW_Straight).state = SigState.green ∧
    (wYellow.set_phase (some "NS_Straight") 13 = wYellow) ∧
    ((wYellow.set_phase (some "N_Left") 13).signals.get
      PhaseId.N_Left).state = SigState.green :=
  And.intro
    ((C3_yellow_floor_amended wYellow PhaseId.NS_Straight PhaseId.EW_Straight
      "EW_Straight" 12 (by decide) (by decide) (by decide) (by decide) (by decide)
      (by decide)).1 (by decide))
    (And.intro
      (((C3_yellow_floor_amended wYellow PhaseId.NS_Straight PhaseId.EW_Straight
        "EW_Straight" 13 (by decide) (by decide) (by decide) (by decide) (by decide)
        (by decide)).2.1 (by decide)).1)
      (And.intro
        ((C3_yellow_floor_amended wYellow PhaseId.NS_Straight PhaseId.EW_Straight
          "EW_Straight" 13 (by decide) (by decide) (by decide) (by decide) (by decide)
          (by decide)).2.2.1)
        (((C3_yellow_floor_amended wYellow PhaseId.NS_Straight PhaseId.EW_Straight
          "EW_Straight" 13 (by decide) (by decide) (by decide) (by decide) (by decide)
          (by decide)).2.2.2 PhaseId.N_Left (by decide)).1)))

/-- C5 (amended): a set_phase request naming an unknown phase is non-fatal
and never activates a phase — active_phase is unchanged and no signal
becomes green that was not green before — but it is not reported to the
caller (set_phase returns nothing) and the intersection state is not
always unchanged: with a phase active, out of clearance and past its
minimum green, the active signal turns yellow at the current tick and the
invalid name is recorded as the pending phase; with a phase active, out of
clearance and below the floor, the state is exactly unchanged; in every
other situation (no active phase, or clearance in progress) every signal
is re-set to red with its timer reset to the current tick. -/
theorem C5_invalid_phase_request_amended (it : Intersection) (nm : String) (t : Int)
    (hnm : parsePhase nm = none) :
    (it.set_phase (some nm) t).active_phase = it.active_phase ∧
    (∀ p, ((it.set_phase (some nm) t).signals.get p).state = SigState.green →
      (it.signals.get p).state = SigState.green) ∧
    (∀ a, it.active_phase = some a → it.is_in_yellow_phase = false →
      (it.signals.get a).is_min_time_passed t = true →
      it.set_phase (some nm) t =
        { it with
            signals := it.signals.set a
              ((it.signals.get a).set_state SigState.yellow t)
            is_in_yellow_phase := true
            next_phase := some nm }) ∧
    (∀ a, it.active_phase = some a → it.is_in_yellow_phase = false →
      (it.signals.get a).is_min_time_passed t = false →
      it.set_phase (some nm) t = it) ∧
    ((it.active_phase = none ∨ it.is_in_yellow_phase = true) →
      it.set_phase (some nm) t = { it with signals := it.signals.allRed t }) := by
  have hret : ¬ it.active_phase.map phaseName = some nm := by
    intro hcon
    rcases hA : it.active_phase with _ | a
    · rw [hA] at hcon
      cases hcon
    · rw [hA] at hcon
      have : phaseName a = nm := Option.some.inj hcon
      rw [← this, parsePhase_phaseName] at hnm
      cases hnm
  refine ⟨?_, ?_, ?_, ?_, ?_⟩
  · unfold Intersection.set_phase
    rw [if_neg hret]
    split
    case _ a hAa hYa =>
      by_cases hm : (it.signals.get a).is_min_time_passed t = true
      · rw [if_pos hm]
      · rw [if_neg hm]
    case _ x y hne =>
      unfold Intersection.activate_new
      split
      case _ p2 hp2 =>
        rw [Option.some_bind, hnm] at hp2
        cases hp2
      case _ hp2 => rfl
  · intro p
    unfold Intersection.set_phase
    rw [if_neg hret]
    split
    case _ a hAa hYa =>
      by_cases hm : (it.signals.get a).is_min_time_passed t = true
      · rw [if_pos hm]
        intro hp
        simp only [sigMap_get_set] at hp
        by_cases hpa : p = a
        · rw [if_pos hpa] at hp
          simp [TrafficSignal.set_state] at hp
        · rw [if_neg hpa] at hp
          exact hp
      · rw [if_neg hm]
        intro hp
        exact hp
    case _ x y hne =>
      unfold Intersection.activate_new
      split
      case _ p2 hp2 =>
        rw [Option.some_bind, hnm] at hp2
        cases hp2
      case _ hp2 =>
        intro hp
        simp [SignalMap.get_allRed, TrafficSignal.set_state] at hp
  · intro a' hA' hY' hm'
    unfold Intersection.set_phase
    rw [if_neg hret]
    split
    case _ a hAa hYa =>
      have haa : a = a' := Option.some.inj (hAa ▸ hA')
      subst haa
      rw [if_pos hm']
    case _ x y hne =>
      exact absurd hY' (by simpa using hne a' hA')
  · intro a' hA' hY' hm'
    unfold Intersection.set_phase
    rw [if_neg hret]
    split
    case _ a hAa hYa =>
      have haa : a = a' := Option.some.inj (hAa ▸ hA')
      subst haa
      rw [if_neg (by rw [hm']; simp)]
    case _ x y hne =>
      exact absurd hY' (by simpa using hne a' hA')
  · intro hdisj
    unfold Intersection.set_phase
    rw [if_neg hret]
    split
    case _ a hAa hYa =>
      rcases hdisj with hnone | hyel
      · rw [hAa] at hnone
        cases hnone
      · rw [hYa] at hyel
        cases hyel
    case _ x y hne =>
      unfold Intersection.activate_new
      split
      case _ p2 hp2 =>
        rw [Option.some_bind, hnm] at hp2
        cases hp2
      case _ hp2 => rfl

/-- C5 counterexample: the request set_phase('bogus', 5) on a fresh
intersection is rejected non-fatally, but the intersection is not left
exactly as it was: every signal's timer is reset (NS_Straight's
state_start_time changes from 0 to 5), so the claimed atomicity fails. -/
theorem C5_invalid_phase_request_counterexample :
    parsePhase "bogus" = none ∧
    initIntersection.set_phase (some "bogus") 5 ≠ initIntersection ∧
    ((initIntersection.set_phase (some "bogus") 5).signals.get
      PhaseId.NS_Straight).state_start_time = 5 ∧
    (initIntersection.signals.get PhaseId.NS_Straight).state_start_time = 0 := by
  decide

/-- Witness for C5 (amended) at a fresh intersection and the unknown name
'bogus' at tick 5: the active phase is unchanged and the result is exactly
the all-signals-red-at-5 state. -/
theorem C5_invalid_phase_request_witness :
    (initIntersection.set_phase (some "bogus") 5).active_phase =
      initIntersection.active_phase ∧
    initIntersection.set_phase (some "bogus") 5 =
      { initIntersection with signals := initIntersection.signals.allRed 5 } :=
  And.intro
    (C5_invalid_phase_request_amended initIntersection "bogus" 5 (by decide)).1
    ((C5_invalid_phase_request_amended initIntersection "bogus" 5
      (by decide)).2.2.2.2 (Or.inl (by decide)))

/-- C10: calling inject_emergency_vehicle with a lane key that is not a
configured lane is a silent no-op: no error is raised and the whole
simulation state — every lane, every signal, all counters, the clock and
the event log — is returned unchanged. -/
theorem C10_invalid_inject_noop (s : Sim) (lane_id ev_type : String)
    (h : parseLane lane_id = none) :
    s.inject_emergency_vehicle lane_id ev_type = s := by
  unfold Sim.inject_emergency_vehicle
  rw [h]

/-- Witness for C10: injecting an ambulance at the unknown key bogus_lane
on a fresh simulation returns exactly the same state. -/
theorem C10_invalid_inject_noop_witness :
    parseLane "bogus_lane" = none ∧
    (mkSim "ai" balancedFlow 20 1 (mkRat 1 2)).inject_emergency_vehicle "bogus_lane"
      "ambulance" = mkSim "ai" balancedFlow 20 1 (mkRat 1 2) :=
  And.intro (by decide)
    (C10_invalid_inject_noop (mkSim "ai" balancedFlow 20 1 (mkRat 1 2)) "bogus_lane"
      "ambulance" (by decide))

theorem find?_prefix_first {α : Type} (p : α → Bool) (l2 : List α) (x : α) :
    ∀ l1 : List α, (∀ y ∈ l1, p y = false) → p x = true →
      (l1 ++ x :: l2).find? p = some x := by
  intro l1
  induction l1 with
  | nil =>
    intro _ hx
    simpa using List.find?_cons_of_pos l2 hx
  | cons a rest ih =>
    intro h1 hx
    rw [List.cons_append, List.find?_cons_of_neg]
    · exact ih (fun y hy => h1 y (by simp [hy])) hx
    · simp [h1 a (by simp)]

/-- The phases strictly before a given phase in PHASES declaration order. -/
def phasesBefore (p : PhaseId) : List PhaseId :=
  phaseOrder.takeWhile (fun q => q ≠ p)

/-- The phases strictly after a given phase in PHASES declaration order. -/
def phasesAfter (p : PhaseId) : List PhaseId :=
  (phaseOrder.dropWhile (fun q => q ≠ p)).tail

theorem phaseOrder_decomp (p : PhaseId) :
    phaseOrder = phasesBefore p ++ p :: phasesAfter p := by
  cases p <;> rfl

/-- The lanes strictly before a given lane in configuration order. -/
def lanesBefore (l : LaneId) : List LaneId :=
  laneOrder.takeWhile (fun k => k ≠ l)

/-- The lanes strictly after a given lane in configuration order. -/
def lanesAfter (l : LaneId) : List LaneId :=
  (laneOrder.dropWhile (fun k => k ≠ l)).tail

theorem laneOrder_decomp (l : LaneId) :
    laneOrder = lanesBefore l ++ l :: lanesAfter l := by
  cases l <;> rfl

theorem inject_lanes_get (s : Sim) (k ty : String) (L : LaneId)
    (hk : parseLane k = some L) (l : LaneId) :
    (s.inject_emergency_vehicle k ty).intersection.lanes.get l =
      (if l = L then
        { s.intersection.lanes.get L with
            vehicles :=
              { id := s.next_id + 1, vehicle_type := ty,
                creation_time := s.current_time, turn_direction := "straight" } ::
                (s.intersection.lanes.get L).vehicles }
      else s.intersection.lanes.get l) := by
  unfold Sim.inject_emergency_vehicle
  rw [hk]
  simp [laneMap_get_set]

/-- C7: after injecting a priority vehicle into an empty lane, the very
next call to the decision function returns the phase containing that lane,
for every state in which no lane's head wait exceeds the starvation
threshold after the injection and no lane of an earlier phase in
declaration order has a priority vehicle at its head. -/
theorem C7_priority_preemption (W1 W2 : ℚ) (s : Sim) (lane_id ev_type : String)
    (L : LaneId) (t : Int)
    (hparse : parseLane lane_id = some L)
    (hev : ev_type = "ambulance" ∨ ev_type = "fire_truck" ∨ ev_type = "police")
    (hempty : (s.intersection.lanes.get L).vehicles = [])
    (hnostarv : ∀ l ∈ laneOrder, ¬ (DynamicPriorityLogic.MAX_WAIT_THRESHOLD <
      ((s.inject_emergency_vehicle lane_id ev_type).intersection.lanes.get
        l).get_longest_wait_time t))
    (hearlier : ∀ p ∈ phasesBefore (phaseContaining L), ∀ l ∈ phaseLanes p,
      emergency_head ((s.inject_emergency_vehicle lane_id ev_type).intersection.lanes.get
        l) = false) :
    DynamicPriorityLogic.decide_next_phase W1 W2
      (s.inject_emergency_vehicle lane_id ev_type).intersection t =
      phaseName (phaseContaining L) := by
  unfold DynamicPriorityLogic.decide_next_phase
  have hr1 : laneOrder.find? (fun l =>
      decide (DynamicPriorityLogic.MAX_WAIT_THRESHOLD <
        ((s.inject_emergency_vehicle lane_id ev_type).intersection.lanes.get
          l).get_longest_wait_time t)) = none := by
    rw [List.find?_eq_none]
    intro l hl
    simpa using hnostarv l hl
  have hr2 : phaseOrder.find? (fun p => (phaseLanes p).any (fun l =>
      emergency_head ((s.inject_emergency_vehicle lane_id
        ev_type).intersection.lanes.get l))) = some (phaseContaining L) := by
    rw [phaseOrder_decomp (phaseContaining L)]
    apply find?_prefix_first
    · intro q hq
      rw [List.any_eq_false]
      intro l hl
      simp [hearlier q hq l hl]
    · rw [List.any_eq_true]
      refine ⟨L, mem_phaseLanes_phaseContaining L, ?_⟩
      rw [inject_lanes_get s lane_id ev_type L hparse L]
      rcases hev with h | h | h <;>
        simp [emergency_head, Vehicle.is_emergency, h]
  simp only [hr1, Option.none_bind, hr2]

/-- Witness for C7: an ambulance injected into the empty north_straight
lane of a fresh simulation makes the next decision at tick 0 select
NS_Straight. -/
theorem C7_priority_preemption_witness :
    DynamicPriorityLogic.decide_next_phase 1 (mkRat 1 2)
      ((mkSim "ai" balancedFlow 20 1 (mkRat 1 2)).inject_emergency_vehicle
        "north_straight" "ambulance").intersection 0 =
      phaseName (phaseContaining LaneId.north_straight) :=
  C7_priority_preemption 1 (mkRat 1 2) (mkSim "ai" balancedFlow 20 1 (mkRat 1 2))
    "north_straight" "ambulance" LaneId.north_straight 0
    (by decide) (Or.inl rfl) (by decide) (by decide) (by decide)

/-- C6 (amended): with several simultaneously starving lanes no finite
wait bound holds (see the counterexample run); what the starvation guard
does guarantee is selection: whenever some lane's head wait exceeds
MAX_WAIT_THRESHOLD, decide_next_phase returns the phase containing the
earliest starving lane in lane-declaration order. -/
theorem C6_starvation_guard_selects_earliest (W1 W2 : ℚ) (it : Intersection) (t : Int)
    (L : LaneId)
    (hstarv : DynamicPriorityLogic.MAX_WAIT_THRESHOLD <
      (it.lanes.get L).get_longest_wait_time t)
    (hfirst : ∀ l ∈ lanesBefore L, ¬ (DynamicPriorityLogic.MAX_WAIT_THRESHOLD <
      (it.lanes.get l).get_longest_wait_time t)) :
    DynamicPriorityLogic.decide_next_phase W1 W2 it t =
      phaseName (phaseContaining L) := by
  unfold DynamicPriorityLogic.decide_next_phase
  have hr1 : laneOrder.find? (fun l =>
      decide (DynamicPriorityLogic.MAX_WAIT_THRESHOLD <
        (it.lanes.get l).get_longest_wait_time t)) = some L := by
    rw [laneOrder_decomp L]
    apply find?_prefix_first
    · intro y hy
      simpa using hfirst y hy
    · simpa using hstarv
  rw [hr1]
  simp [find_phase_containing_mem L]

/-- A fresh intersection whose south_left lane holds one car that arrived
at tick 0. -/
def wStarve : Intersection :=
  { initIntersection with
      lanes := initIntersection.lanes.set LaneId.south_left
        { id := "south_left",
          vehicles :=
            [{ id := 1, vehicle_type := "car",
               creation_time := 0, turn_direction := "left" }] } }

/-- Witness for C6 (amended): at tick 121 the south_left car has waited
121 > 120 ticks and no earlier lane is starving, so the decision selects
S_Left. -/
theorem C6_starvation_guard_witness :
    DynamicPriorityLogic.decide_next_phase 1 (mkRat 1 2) wStarve 121 =
      phaseName (phaseContaining LaneId.south_left) :=
  C6_starvation_guard_selects_earliest 1 (mkRat 1 2) wStarve 121 LaneId.south_left
    (by decide) (by decide)

/-- The draw vector used at tick k of the counterexample run: a draw of 0
(below every Balanced Flow probability) spawns a car into north_straight
at ticks 0..124 and into east_straight at tick 0 only; a draw of 1 spawns
nothing anywhere else. -/
def demoRand (k : Nat) : LaneId → ℚ := fun l =>
  if l = LaneId.north_straight ∧ k ≤ 124 then 0
  else if l = LaneId.east_straight ∧ k = 0 then 0 else 1

/-- The dynamic-logic simulation of the counterexample run, on the
Balanced Flow profile with the default weights. -/
def demoSim0 : Sim := mkSim "ai" balancedFlow 20 1 (mkRat 1 2)

/-- One tick of the counterexample run: inject an ambulance into
north_left (keeping N_Left selected by the emergency rule while the
north_straight backlog builds), then step with the tick's draws. -/
def demoStep (k : Nat) (s : Sim) : Sim :=
  (s.inject_emergency_vehicle "north_left" "ambulance").step (demoRand k)

/-- The state of the counterexample run after k ticks. -/
def demoRun : Nat → Sim
  | 0 => demoSim0
  | k + 1 => demoStep k (demoRun k)

/-- Checks that the EW_Straight signal is not green in the current state
nor in any of the next fuel states of the counterexample run started at
tick k. -/
def demoCheckFrom : Nat → Nat → Sim → Bool
  | _, 0, s =>
    !(decide ((s.intersection.signals.get PhaseId.EW_Straight).state = SigState.green))
  | k, fuel + 1, s =>
    (!(decide ((s.intersection.signals.get PhaseId.EW_Straight).state = SigState.green)))
      && demoCheckFrom (k + 1) fuel (demoStep k s)

set_option maxRecDepth 10000

/-- C6 counterexample: a concrete 140-tick run of the simulator (Balanced
Flow profile, default weights, draws per demoRand, one ambulance injected
into north_left each tick).  north_left holds the green via the emergency
rule while north_straight builds a 125-car backlog; from tick 121 on,
north_straight is the earliest starving lane, so the guard keeps selecting
NS_Straight while the backlog drains.  The car that entered east_straight
at tick 0 is still queued at tick 140 with a wait of 140 ticks — beyond
starvation_threshold + yellow_duration + min_green_duration = 133 — and
the EW_Straight signal has not been green in any of the 141 states of the
run, so the claimed bound fails when more than one lane starves at once. -/
theorem C6_starvation_bound_counterexample :
    demoCheckFrom 0 140 demoSim0 = true ∧
    (demoRun 140).current_time = 140 ∧
    ((demoRun 140).intersection.lanes.get LaneId.east_straight).vehicles.map
      (fun v => v.creation_time) = [0] ∧
    (120 : ℚ) + 3 + 10 <
      ((demoRun 140).intersection.lanes.get
        LaneId.east_straight).get_longest_wait_time (demoRun 140).current_time := by
  refine ⟨by decide, by decide, by decide, ?_⟩
  have h133 : (120 : ℚ) + 3 + 10 = 133 := by norm_num
  rw [h133]
  decide

theorem activate_new_lanes (it : Intersection) (arg : Option String) (t : Int) :
    (it.activate_new arg t).lanes = it.lanes := by
  unfold Intersection.activate_new
  split <;> rfl

theorem set_phase_lanes (it : Intersection) (arg : Option String) (t : Int) :
    (it.set_phase arg t).lanes = it.lanes := by
  unfold Intersection.set_phase
  by_cases hret : it.active_phase.map phaseName = arg
  · rw [if_pos hret]
  · rw [if_neg hret]
    split
    case _ a hA hY => split <;> rfl
    case _ x y hne => exact activate_new_lanes it arg t

theorem update_yellow_lanes (it : Intersection) (t : Int) :
    (it.update_yellow_phase t).lanes = it.lanes := by
  unfold Intersection.update_yellow_phase
  split
  · rfl
  · split
    · rfl
    · split
      · exact set_phase_lanes _ _ _
      · rfl

/-- Total number of vehicles queued over all configured lanes. -/
def totalVehiclesMap (m : LaneMap) : Nat :=
  (laneOrder.map (fun l => (m.get l).vehicles.length)).sum

/-- Total number of vehicles remaining in all lanes of the simulation. -/
def totalVehicles (s : Sim) : Nat := totalVehiclesMap s.intersection.lanes

theorem totalVehiclesMap_set (m : LaneMap) (L : LaneId) (lane2 : Lane) :
    totalVehiclesMap (m.set L lane2) + (m.get L).vehicles.length =
      totalVehiclesMap m + lane2.vehicles.length := by
  cases L <;> simp [totalVehiclesMap, laneOrder, LaneMap.set, LaneMap.get] <;> omega

theorem spawn_one_totalVehicles (s : Sim) (l : LaneId) :
    totalVehicles (s.spawn_one l) = totalVehicles s + 1 := by
  have h := totalVehiclesMap_set s.intersection.lanes l
    ((s.intersection.lanes.get l).add_vehicle
      { id := s.next_id + 1, vehicle_type := "car"
        creation_time := s.current_time, turn_direction := laneTurn l })
  have hlen : ((s.intersection.lanes.get l).add_vehicle
      { id := s.next_id + 1, vehicle_type := "car"
        creation_time := s.current_time, turn_direction := laneTurn l }).vehicles.length =
      (s.intersection.lanes.get l).vehicles.length + 1 := by
    simp [Lane.add_vehicle]
  show totalVehiclesMap (s.intersection.lanes.set l
    ((s.intersection.lanes.get l).add_vehicle
      { id := s.next_id + 1, vehicle_type := "car"
        creation_time := s.current_time, turn_direction := laneTurn l })) =
    totalVehiclesMap s.intersection.lanes + 1
  omega

theorem spawn_loop_conservation (rand : LaneId → ℚ) :
    ∀ (items : List (LaneId × ℚ)) (s : Sim),
      totalVehicles (spawn_loop rand items s) =
        totalVehicles s + (items.filter (fun item => rand item.1 < item.2)).length ∧
      (spawn_loop rand items s).total_cars_passed = s.total_cars_passed := by
  intro items
  induction items with
  | nil =>
    intro s
    exact ⟨by simp [spawn_loop], rfl⟩
  | cons x rest ih =>
    intro s
    rcases x with ⟨l, prob⟩
    by_cases hc : rand l < prob
    · simp only [spawn_loop, if_pos hc]
      obtain ⟨ht, hp⟩ := ih (s.spawn_one l)
      constructor
      · rw [ht, spawn_one_totalVehicles]
        rw [List.filter_cons_of_pos (by simpa using hc)]
        simp only [List.length_cons]
        omega
      · rw [hp]
        rfl
    · simp only [spawn_loop, if_neg hc]
      rw [List.filter_cons_of_neg (by simpa using hc)]
      exact ih s

theorem request_phase_step_shape (s : Sim) : ∃ si dls dci,
    s.request_phase_step =
      { s with intersection := si, dumb_timer_last_switch := dls,
               dumb_timer_current_index := dci } ∧
    si.lanes = s.intersection.lanes := by
  unfold Sim.request_phase_step
  by_cases hm : s.logic_mode = "ai"
  · rw [if_pos hm]
    generalize DynamicPriorityLogic.decide_next_phase s.W1 s.W2 s.intersection
      s.current_time = best
    by_cases hb : best ≠ ""
    · rw [if_pos hb]
      exact ⟨_, _, _, rfl, set_phase_lanes _ _ _⟩
    · rw [if_neg hb]
      exact ⟨s.intersection, s.dumb_timer_last_switch, s.dumb_timer_current_index, rfl, rfl⟩
  · rw [if_neg hm]
    by_cases hd : s.dumb_timer_duration ≤ s.current_time - s.dumb_timer_last_switch
    · rw [if_pos hd]
      exact ⟨_, _, _, rfl, set_phase_lanes _ _ _⟩
    · rw [if_neg hd]
      exact ⟨s.intersection, s.dumb_timer_last_switch, s.dumb_timer_current_index, rfl, rfl⟩

theorem discharge_one_conservation (s : Sim) (l : LaneId) :
    (s.discharge_one l).total_cars_passed + totalVehicles (s.discharge_one l) =
      s.total_cars_passed + totalVehicles s := by
  unfold Sim.discharge_one
  rcases hrm : (s.intersection.lanes.get l).remove_vehicle with ⟨ov, lane2⟩
  rcases ov with _ | v
  · rfl
  · unfold Lane.remove_vehicle at hrm
    rcases hlv : (s.intersection.lanes.get l).vehicles with _ | ⟨v2, rest⟩
    · rw [hlv] at hrm
      cases hrm
    · rw [hlv] at hrm
      rw [Prod.mk.injEq] at hrm
      obtain ⟨hv2, hlane2⟩ := hrm
      have hlen2 : lane2.vehicles.length + 1 =
          (s.intersection.lanes.get l).vehicles.length := by
        rw [← hlane2, hlv]
        simp
      have h := totalVehiclesMap_set s.intersection.lanes l lane2
      dsimp only
      show s.total_cars_passed + 1 + totalVehiclesMap (s.intersection.lanes.set l lane2) =
        s.total_cars_passed + totalVehiclesMap s.intersection.lanes
      omega

theorem discharge_loop_conservation :
    ∀ (ks : List LaneId) (s : Sim),
      (discharge_loop ks s).total_cars_passed + totalVehicles (discharge_loop ks s) =
        s.total_cars_passed + totalVehicles s := by
  intro ks
  induction ks with
  | nil => intro s; rfl
  | cons k rest ih =>
    intro s
    simp only [discharge_loop]
    rw [ih (s.discharge_one k)]
    exact discharge_one_conservation s k

theorem discharge_step_conservation (s : Sim) :
    s.discharge_step.total_cars_passed + totalVehicles s.discharge_step =
      s.total_cars_passed + totalVehicles s := by
  unfold Sim.discharge_step
  rcases hap : s.intersection.active_phase with _ | p
  · rfl
  · change (if (s.intersection.signals.get p).state = SigState.green then
        discharge_loop (phaseLanes p) s else s).total_cars_passed +
      totalVehicles (if (s.intersection.signals.get p).state = SigState.green then
        discharge_loop (phaseLanes p) s else s) =
      s.total_cars_passed + totalVehicles s
    by_cases hg : (s.intersection.signals.get p).state = SigState.green
    · rw [if_pos hg]
      exact discharge_loop_conservation (phaseLanes p) s
    · rw [if_neg hg]

/-- Number of vehicles spawned by one step call: zero while the yellow
clearance swallows the tick, else one per profile entry whose draw
succeeds. -/
def addedByStep (s : Sim) (rand : LaneId → ℚ) : Nat :=
  if (s.intersection.update_yellow_phase s.current_time).is_in_yellow_phase then 0
  else (s.profile.filter (fun item => rand item.1 < item.2)).length

theorem step_conservation (s : Sim) (rand : LaneId → ℚ) :
    (s.step rand).total_cars_passed + totalVehicles (s.step rand) =
      s.total_cars_passed + totalVehicles s + addedByStep s rand := by
  unfold Sim.step Sim.step_core Sim.tick addedByStep
  by_cases hy : ({ s with intersection := s.intersection.update_yellow_phase s.current_time }
      : Sim).intersection.is_in_yellow_phase
  · have hy2 : (s.intersection.update_yellow_phase s.current_time).is_in_yellow_phase = true := hy
    rw [if_pos hy, if_pos hy2]
    show s.total_cars_passed +
      totalVehiclesMap (s.intersection.update_yellow_phase s.current_time).lanes =
      s.total_cars_passed + totalVehicles s + 0
    rw [update_yellow_lanes]
    rfl
  · have hy2 : ¬ (s.intersection.update_yellow_phase s.current_time).is_in_yellow_phase = true :=
      hy
    rw [if_neg hy, if_neg hy2]
    set A : Sim := { s with intersection := s.intersection.update_yellow_phase s.current_time }
      with hA
    set B : Sim := spawn_loop rand A.profile A with hB
    set C : Sim := B.request_phase_step with hC
    set D : Sim := C.discharge_step with hD
    show D.total_cars_passed + totalVehicles D =
      s.total_cars_passed + totalVehicles s +
        (s.profile.filter (fun item => rand item.1 < item.2)).length
    have h1 : D.total_cars_passed + totalVehicles D =
        C.total_cars_passed + totalVehicles C := by
      rw [hD]
      exact discharge_step_conservation C
    have h2 : C.total_cars_passed = B.total_cars_passed ∧
        totalVehicles C = totalVehicles B := by
      obtain ⟨si, dls, dci, hreq, hlanes⟩ := request_phase_step_shape B
      rw [hC, hreq]
      constructor
      · rfl
      · show totalVehiclesMap si.lanes = totalVehicles B
        rw [hlanes]
        rfl
    have h3 := spawn_loop_conservation rand A.profile A
    rw [← hB] at h3
    obtain ⟨h3t, h3p⟩ := h3
    have h4p : A.total_cars_passed = s.total_cars_passed := by rw [hA]
    have h4t : totalVehicles A = totalVehicles s := by
      rw [hA]
      show totalVehiclesMap (s.intersection.update_yellow_phase s.current_time).lanes =
        totalVehicles s
      rw [update_yellow_lanes]
      rfl
    have h6 : (A.profile.filter (fun item => rand item.1 < item.2)).length =
        (s.profile.filter (fun item => rand item.1 < item.2)).length := by rw [hA]
    obtain ⟨h2p, h2t⟩ := h2
    omega

theorem inject_conservation (s : Sim) (k ty : String) :
    (s.inject_emergency_vehicle k ty).total_cars_passed +
      totalVehicles (s.inject_emergency_vehicle k ty) =
      s.total_cars_passed + totalVehicles s +
        (if (parseLane k).isSome then 1 else 0) := by
  unfold Sim.inject_emergency_vehicle
  rcases hk : parseLane k with _ | L
  · simp
  · have h := totalVehiclesMap_set s.intersection.lanes L
      { s.intersection.lanes.get L with
          vehicles :=
            { id := s.next_id + 1, vehicle_type := ty,
              creation_time := s.current_time, turn_direction := "straight" } ::
              (s.intersection.lanes.get L).vehicles }
    have hlen : ({ s.intersection.lanes.get L with
        vehicles :=
          { id := s.next_id + 1, vehicle_type := ty,
            creation_time := s.current_time, turn_direction := "straight" } ::
            (s.intersection.lanes.get L).vehicles } : Lane).vehicles.length =
        (s.intersection.lanes.get L).vehicles.length + 1 := by
      simp
    show s.total_cars_passed + totalVehiclesMap (s.intersection.lanes.set L
      { s.intersection.lanes.get L with
          vehicles :=
            { id := s.next_id + 1, vehicle_type := ty,
              creation_time := s.current_time, turn_direction := "straight" } ::
              (s.intersection.lanes.get L).vehicles }) =
      s.total_cars_passed + totalVehiclesMap s.intersection.lanes + 1
    omega

/-- The outward control surface exercised by the conservation claim: one
step call with its draw vector, or one emergency injection. -/
inductive SimOp where
  | step (rand : LaneId → ℚ)
  | inject (lane_id ev_type : String)

def applySimOp (s : Sim) : SimOp → Sim
  | .step rand => s.step rand
  | .inject k ty => s.inject_emergency_vehicle k ty

def runOps (s : Sim) : List SimOp → Sim
  | [] => s
  | op :: rest => runOps (applySimOp s op) rest

/-- Number of vehicles an operation adds to the lanes. -/
def addedByOp (s : Sim) : SimOp → Nat
  | .step rand => addedByStep s rand
  | .inject k _ => if (parseLane k).isSome then 1 else 0

/-- Total number of vehicles ever added (spawned or injected) along a run. -/
def totalAdded (s : Sim) : List SimOp → Nat
  | [] => 0
  | op :: rest => addedByOp s op + totalAdded (applySimOp s op) rest

theorem runOps_conservation :
    ∀ (ops : List SimOp) (s : Sim),
      (runOps s ops).total_cars_passed + totalVehicles (runOps s ops) =
        s.total_cars_passed + totalVehicles s + totalAdded s ops := by
  intro ops
  induction ops with
  | nil => intro s; rfl
  | cons op rest ih =>
    intro s
    simp only [runOps, totalAdded]
    rw [ih (applySimOp s op)]
    rcases op with rand | ⟨k, ty⟩
    · have := step_conservation s rand
      simp only [applySimOp, addedByOp]
      omega
    · have := inject_conservation s k ty
      simp only [applySimOp, addedByOp]
      omega

/-- C8: along every run of step and inject_emergency_vehicle calls from a
fresh simulation, the number of vehicles discharged so far plus the number
remaining in all lanes equals the total number of vehicles ever added to
the lanes (spawned by draws or injected); no vehicle is dropped or
duplicated. -/
theorem C8_conservation (logic_mode : String) (profile : List (LaneId × ℚ))
    (dumb_duration : Int) (w1 w2 : ℚ) (ops : List SimOp) :
    (runOps (mkSim logic_mode profile dumb_duration w1 w2) ops).total_cars_passed +
      totalVehicles (runOps (mkSim logic_mode profile dumb_duration w1 w2) ops) =
      totalAdded (mkSim logic_mode profile dumb_duration w1 w2) ops := by
  have h := runOps_conservation ops (mkSim logic_mode profile dumb_duration w1 w2)
  have h0 : (mkSim logic_mode profile dumb_duration w1 w2).total_cars_passed +
      totalVehicles (mkSim logic_mode profile dumb_duration w1 w2) = 0 := rfl
  omega

/-- The vehicle ids currently queued in a lane, head first. -/
def laneIds (s : Sim) (l : LaneId) : List Nat :=
  (s.intersection.lanes.get l).vehicles.map (fun v => v.id)

/-- The vehicle ids discharged from a lane so far, in event-log order. -/
def dischargedIds (s : Sim) (l : LaneId) : List Nat :=
  (s.event_log.filter (fun e => e.origin_lane = laneName l)).map (fun e => e.vehicle_id)

/-- Every Lane object's id field is the name of its key (true from
construction on and preserved by every operation). -/
def LaneIdsOk (s : Sim) : Prop :=
  ∀ k, (s.intersection.lanes.get k).id = laneName k

theorem laneName_injective (k l : LaneId) (h : laneName k = laneName l) : k = l := by
  cases k <;> cases l <;> first
    | rfl
    | (exfalso; simp [laneName] at h)

theorem mkSim_LaneIdsOk (logic_mode : String) (profile : List (LaneId × ℚ))
    (dumb_duration : Int) (w1 w2 : ℚ) :
    LaneIdsOk (mkSim logic_mode profile dumb_duration w1 w2) := by
  intro k
  cases k <;> rfl

theorem spawn_one_LaneIdsOk (s : Sim) (l : LaneId) (h : LaneIdsOk s) :
    LaneIdsOk (s.spawn_one l) := by
  intro k
  unfold Sim.spawn_one
  dsimp only
  rw [laneMap_get_set]
  by_cases hk : k = l
  · rw [if_pos hk, hk]
    show (s.intersection.lanes.get l).id = laneName l
    exact h l
  · rw [if_neg hk]
    exact h k

theorem spawn_loop_LaneIdsOk (rand : LaneId → ℚ) :
    ∀ (items : List (LaneId × ℚ)) (s : Sim), LaneIdsOk s →
      LaneIdsOk (spawn_loop rand items s) := by
  intro items
  induction items with
  | nil => intro s h; exact h
  | cons x rest ih =>
    intro s h
    rcases x with ⟨l, prob⟩
    by_cases hc : rand l < prob
    · simp only [spawn_loop, if_pos hc]
      exact ih _ (spawn_one_LaneIdsOk s l h)
    · simp only [spawn_loop, if_neg hc]
      exact ih s h

theorem discharge_one_LaneIdsOk (s : Sim) (l : LaneId) (h : LaneIdsOk s) :
    LaneIdsOk (s.discharge_one l) := by
  intro k
  unfold Sim.discharge_one
  rcases hrm : (s.intersection.lanes.get l).remove_vehicle with ⟨ov, lane2⟩
  rcases ov with _ | v
  · exact h k
  · have hid : lane2.id = (s.intersection.lanes.get l).id := by
      unfold Lane.remove_vehicle at hrm
      rcases hlv : (s.intersection.lanes.get l).vehicles with _ | ⟨v2, rest⟩
      · rw [hlv] at hrm
        cases hrm
      · rw [hlv] at hrm
        rw [Prod.mk.injEq] at hrm
        rw [← hrm.2]
    dsimp only
    rw [laneMap_get_set]
    by_cases hk : k = l
    · rw [if_pos hk, hid, hk]
      exact h l
    · rw [if_neg hk]
      exact h k

theorem discharge_loop_LaneIdsOk :
    ∀ (ks : List LaneId) (s : Sim), LaneIdsOk s → LaneIdsOk (discharge_loop ks s) := by
  intro ks
  induction ks with
  | nil => intro s h; exact h
  | cons k rest ih =>
    intro s h
    simp only [discharge_loop]
    exact ih _ (discharge_one_LaneIdsOk s k h)

theorem request_phase_step_LaneIdsOk (s : Sim) (h : LaneIdsOk s) :
    LaneIdsOk s.request_phase_step := by
  obtain ⟨si, dls, dci, hreq, hlanes⟩ := request_phase_step_shape s
  intro k
  rw [hreq]
  show (si.lanes.get k).id = laneName k
  rw [hlanes]
  exact h k

theorem discharge_step_LaneIdsOk (s : Sim) (h : LaneIdsOk s) :
    LaneIdsOk s.discharge_step := by
  unfold Sim.discharge_step
  rcases hap : s.intersection.active_phase with _ | p
  · exact h
  · change LaneIdsOk (if (s.intersection.signals.get p).state = SigState.green then
      discharge_loop (phaseLanes p) s else s)
    by_cases hg : (s.intersection.signals.get p).state = SigState.green
    · rw [if_pos hg]
      exact discharge_loop_LaneIdsOk (phaseLanes p) s h
    · rw [if_neg hg]
      exact h

theorem step_LaneIdsOk (s : Sim) (rand : LaneId → ℚ) (h : LaneIdsOk s) :
    LaneIdsOk (s.step rand) := by
  unfold Sim.step Sim.step_core Sim.tick
  have hA : LaneIdsOk ({ s with
      intersection := s.intersection.update_yellow_phase s.current_time } : Sim) := by
    intro k
    show ((s.intersection.update_yellow_phase s.current_time).lanes.get k).id = laneName k
    rw [update_yellow_lanes]
    exact h k
  by_cases hy : ({ s with intersection := s.intersection.update_yellow_phase s.current_time }
      : Sim).intersection.is_in_yellow_phase
  · rw [if_pos hy]
    intro k
    exact hA k
  · rw [if_neg hy]
    intro k
    exact discharge_step_LaneIdsOk _ (request_phase_step_LaneIdsOk _
      (spawn_loop_LaneIdsOk _ _ _ hA)) k

/-- The ids of the vehicles the spawning loop appends to a given lane, in
spawn order (mirrors spawn_loop item by item). -/
def spawn_new (rand : LaneId → ℚ) (l : LaneId) : List (LaneId × ℚ) → Sim → List Nat
  | [], _ => []
  | (k, prob) :: rest, s =>
    if rand k < prob then
      (if k = l then [s.next_id + 1] else []) ++ spawn_new rand l rest (s.spawn_one k)
    else spawn_new rand l rest s

theorem spawn_one_laneIds (s : Sim) (k l : LaneId) :
    laneIds (s.spawn_one k) l = laneIds s l ++ (if k = l then [s.next_id + 1] else []) := by
  unfold Sim.spawn_one laneIds
  dsimp only
  rw [laneMap_get_set]
  by_cases hk : l = k
  · subst hk
    rw [if_pos rfl, if_pos rfl]
    simp [Lane.add_vehicle]
  · rw [if_neg hk, if_neg (fun hc => hk hc.symm)]
    simp

theorem spawn_loop_laneIds (rand : LaneId → ℚ) (l : LaneId) :
    ∀ (items : List (LaneId × ℚ)) (s : Sim),
      laneIds (spawn_loop rand items s) l = laneIds s l ++ spawn_new rand l items s := by
  intro items
  induction items with
  | nil =>
    intro s
    simp [spawn_loop, spawn_new]
  | cons x rest ih =>
    intro s
    rcases x with ⟨k, prob⟩
    by_cases hc : rand k < prob
    · simp only [spawn_loop, spawn_new, if_pos hc]
      rw [ih (s.spawn_one k), spawn_one_laneIds, List.append_assoc]
    · simp only [spawn_loop, spawn_new, if_neg hc]
      exact ih s

theorem spawn_loop_log (rand : LaneId → ℚ) (items : List (LaneId × ℚ)) (s : Sim) :
    (spawn_loop rand items s).event_log = s.event_log := by
  obtain ⟨L, n, h⟩ := spawn_loop_shape rand items s
  rw [h]

theorem discharge_one_fifo (s : Sim) (k : LaneId) (hids : LaneIdsOk s) (l : LaneId) :
    dischargedIds (s.discharge_one k) l ++ laneIds (s.discharge_one k) l =
      dischargedIds s l ++ laneIds s l := by
  unfold Sim.discharge_one
  rcases hrm : (s.intersection.lanes.get k).remove_vehicle with ⟨ov, lane2⟩
  rcases ov with _ | v
  · rfl
  · unfold Lane.remove_vehicle at hrm
    rcases hlv : (s.intersection.lanes.get k).vehicles with _ | ⟨v2, rest⟩
    · rw [hlv] at hrm
      cases hrm
    · rw [hlv] at hrm
      rw [Prod.mk.injEq] at hrm
      obtain ⟨hv2, hlane2⟩ := hrm
      have hv2v : v2 = v := Option.some.inj hv2
      unfold dischargedIds laneIds
      dsimp only
      rw [List.filter_append, List.map_append, laneMap_get_set]
      by_cases hkl : l = k
      · subst hkl
        rw [if_pos rfl]
        have horigin : (s.intersection.lanes.get l).id = laneName l := hids l
        rw [← hlane2]
        simp [horigin, hlv, hv2v]
      · rw [if_neg hkl]
        have hne : ¬ ((s.intersection.lanes.get k).id = laneName l) := by
          rw [hids k]
          intro hcon
          exact hkl (laneName_injective k l hcon).symm
        simp [hne]

theorem discharge_loop_fifo :
    ∀ (ks : List LaneId) (s : Sim), LaneIdsOk s → ∀ l,
      dischargedIds (discharge_loop ks s) l ++ laneIds (discharge_loop ks s) l =
        dischargedIds s l ++ laneIds s l := by
  intro ks
  induction ks with
  | nil => intro s _ l; rfl
  | cons k rest ih =>
    intro s h l
    simp only [discharge_loop]
    rw [ih _ (discharge_one_LaneIdsOk s k h) l]
    exact discharge_one_fifo s k h l

theorem discharge_step_shape (s : Sim) : ∃ L c w e,
    s.discharge_step =
      { s with intersection := { s.intersection with lanes := L },
               total_cars_passed := c, total_wait_time := w, event_log := e } := by
  unfold Sim.discharge_step
  rcases hap : s.intersection.active_phase with _ | p
  · exact ⟨s.intersection.lanes, s.total_cars_passed, s.total_wait_time, s.event_log, rfl⟩
  · change ∃ L c w e, (if (s.intersection.signals.get p).state = SigState.green then
      discharge_loop (phaseLanes p) s else s) = _
    by_cases hg : (s.intersection.signals.get p).state = SigState.green
    · rw [if_pos hg]
      exact discharge_loop_shape (phaseLanes p) s
    · rw [if_neg hg]
      exact ⟨s.intersection.lanes, s.total_cars_passed, s.total_wait_time, s.event_log, rfl⟩

theorem discharge_step_fifo (s : Sim) (hids : LaneIdsOk s) (l : LaneId) :
    dischargedIds s.discharge_step l ++ laneIds s.discharge_step l =
      dischargedIds s l ++ laneIds s l := by
  unfold Sim.discharge_step
  rcases hap : s.intersection.active_phase with _ | p
  · rfl
  · change dischargedIds (if (s.intersection.signals.get p).state = SigState.green then
        discharge_loop (phaseLanes p) s else s) l ++
      laneIds (if (s.intersection.signals.get p).state = SigState.green then
        discharge_loop (phaseLanes p) s else s) l =
      dischargedIds s l ++ laneIds s l
    by_cases hg : (s.intersection.signals.get p).state = SigState.green
    · rw [if_pos hg]
      exact discharge_loop_fifo (phaseLanes p) s hids l
    · rw [if_neg hg]

/-- The ids a single step call appends to a lane: nothing while the yellow
clearance swallows the tick, else the ids spawned by the draw vector. -/
def stepNewIds (s : Sim) (rand : LaneId → ℚ) (l : LaneId) : List Nat :=
  if ({ s with intersection := s.intersection.update_yellow_phase s.current_time }
      : Sim).intersection.is_in_yellow_phase then []
  else
    spawn_new rand l
      ({ s with intersection := s.intersection.update_yellow_phase s.current_time }
        : Sim).profile
      { s with intersection := s.intersection.update_yellow_phase s.current_time }

theorem step_fifo (s : Sim) (rand : LaneId → ℚ) (l : LaneId) (hids : LaneIdsOk s) :
    dischargedIds (s.step rand) l ++ laneIds (s.step rand) l =
      dischargedIds s l ++ laneIds s l ++ stepNewIds s rand l := by
  unfold Sim.step Sim.step_core Sim.tick stepNewIds
  have hAids : LaneIdsOk ({ s with
      intersection := s.intersection.update_yellow_phase s.current_time } : Sim) := by
    intro k
    show ((s.intersection.update_yellow_phase s.current_time).lanes.get k).id = laneName k
    rw [update_yellow_lanes]
    exact hids k
  by_cases hy : ({ s with intersection := s.intersection.update_yellow_phase s.current_time }
      : Sim).intersection.is_in_yellow_phase
  · rw [if_pos hy, if_pos hy]
    show dischargedIds s l ++
      ((s.intersection.update_yellow_phase s.current_time).lanes.get l).vehicles.map
        (fun v => v.id) =
      dischargedIds s l ++ laneIds s l ++ []
    rw [update_yellow_lanes, List.append_nil]
    rfl
  · rw [if_neg hy, if_neg hy]
    set A : Sim := { s with intersection := s.intersection.update_yellow_phase s.current_time }
      with hA2
    set B : Sim := spawn_loop rand A.profile A with hB
    set C : Sim := B.request_phase_step with hC
    set D : Sim := C.discharge_step with hD
    have hBids : LaneIdsOk B := by
      rw [hB]
      exact spawn_loop_LaneIdsOk rand A.profile A hAids
    have hCids : LaneIdsOk C := by
      rw [hC]
      exact request_phase_step_LaneIdsOk B hBids
    have h1 : dischargedIds D l ++ laneIds D l = dischargedIds C l ++ laneIds C l := by
      rw [hD]
      exact discharge_step_fifo C hCids l
    have h2d : dischargedIds C l = dischargedIds B l := by
      obtain ⟨si, dls, dci, hreq, hlanes⟩ := request_phase_step_shape B
      rw [hC, hreq]
      rfl
    have h2l : laneIds C l = laneIds B l := by
      obtain ⟨si, dls, dci, hreq, hlanes⟩ := request_phase_step_shape B
      rw [hC, hreq]
      show (si.lanes.get l).vehicles.map (fun v => v.id) = laneIds B l
      rw [hlanes]
      rfl
    have h3l : laneIds B l = laneIds A l ++ spawn_new rand l A.profile A := by
      rw [hB]
      exact spawn_loop_laneIds rand l A.profile A
    have h3d : dischargedIds B l = dischargedIds A l := by
      rw [hB]
      unfold dischargedIds
      rw [spawn_loop_log]
    have h4d : dischargedIds A l = dischargedIds s l := by
      rw [hA2]
      rfl
    have h4l : laneIds A l = laneIds s l := by
      rw [hA2]
      show ((s.intersection.update_yellow_phase s.current_time).lanes.get l).vehicles.map
        (fun v => v.id) = laneIds s l
      rw [update_yellow_lanes]
      rfl
    show dischargedIds D l ++ laneIds D l =
      dischargedIds s l ++ laneIds s l ++ spawn_new rand l A.profile A
    rw [h1, h2d, h2l, h3d, h3l, h4d, h4l, List.append_assoc]

theorem step_time (s : Sim) (rand : LaneId → ℚ) :
    (s.step rand).current_time = s.current_time + 1 := by
  unfold Sim.step Sim.step_core Sim.tick
  by_cases hy : ({ s with intersection := s.intersection.update_yellow_phase s.current_time }
      : Sim).intersection.is_in_yellow_phase
  · rw [if_pos hy]
  · rw [if_neg hy]
    set A : Sim := { s with intersection := s.intersection.update_yellow_phase s.current_time }
      with hA
    set B : Sim := spawn_loop rand A.profile A with hB
    set C : Sim := B.request_phase_step with hC
    set D : Sim := C.discharge_step with hD
    show D.current_time + 1 = s.current_time + 1
    have h1 : D.current_time = C.current_time := by
      obtain ⟨L, c, w, e, h⟩ := discharge_step_shape C
      rw [hD, h]
    have h2 : C.current_time = B.current_time := by
      obtain ⟨si, dls, dci, h, _⟩ := request_phase_step_shape B
      rw [hC, h]
    have h3 : B.current_time = A.current_time := by
      obtain ⟨L, n, h⟩ := spawn_loop_shape rand A.profile A
      rw [hB, h]
    have h4 : A.current_time = s.current_time := by rw [hA]
    omega

def runSteps (s : Sim) : List (LaneId → ℚ) → Sim
  | [] => s
  | r :: rs => runSteps (s.step r) rs

/-- The ids of all vehicles that arrive in a lane along a run of step
calls, in arrival order. -/
def arrivalsAux (s : Sim) (l : LaneId) : List (LaneId → ℚ) → List Nat
  | [] => []
  | r :: rs => stepNewIds s r l ++ arrivalsAux (s.step r) l rs

theorem runSteps_fifo (l : LaneId) :
    ∀ (rands : List (LaneId → ℚ)) (s : Sim), LaneIdsOk s →
      dischargedIds (runSteps s rands) l ++ laneIds (runSteps s rands) l =
        dischargedIds s l ++ laneIds s l ++ arrivalsAux s l rands := by
  intro rands
  induction rands with
  | nil =>
    intro s _
    simp [runSteps, arrivalsAux]
  | cons r rs ih =>
    intro s h
    simp only [runSteps, arrivalsAux]
    rw [ih (s.step r) (step_LaneIdsOk s r h), step_fifo s r l h]
    simp [List.append_assoc]

/-- The simulation state with one car (arrived at tick 0) in south_left
and NS_Straight green since tick 0: stepping it discharges nothing from
south_left, so the same vehicle stays at its head. -/
def wSim3 : Sim :=
  { mkSim "ai" balancedFlow 20 1 (mkRat 1 2) with
      intersection := wStarve.set_phase (some "NS_Straight") 0 }

/-- C9: FIFO integrity.  Along every run of step calls with no priority
injection, for every lane the discharged ids followed by the ids still
queued equal the arrival sequence of that lane, in order — enqueue appends
to the tail, discharge removes the head, and no operation reorders the
queue; moreover, across any single step that keeps the same vehicle at a
lane's head, the lane's head wait does not decrease. -/
theorem C9_fifo_integrity (logic_mode : String) (profile : List (LaneId × ℚ))
    (dumb_duration : Int) (w1 w2 : ℚ) (rands : List (LaneId → ℚ)) (l : LaneId)
    (s2 : Sim) (rand2 : LaneId → ℚ) (v : Vehicle)
    (hhead1 : (s2.intersection.lanes.get l).vehicles.head? = some v)
    (hhead2 : ((s2.step rand2).intersection.lanes.get l).vehicles.head? = some v) :
    (dischargedIds (runSteps (mkSim logic_mode profile dumb_duration w1 w2) rands) l ++
      laneIds (runSteps (mkSim logic_mode profile dumb_duration w1 w2) rands) l =
      arrivalsAux (mkSim logic_mode profile dumb_duration w1 w2) l rands) ∧
    (s2.intersection.lanes.get l).get_longest_wait_time s2.current_time ≤
      ((s2.step rand2).intersection.lanes.get l).get_longest_wait_time
        (s2.step rand2).current_time := by
  constructor
  · have h := runSteps_fifo l rands (mkSim logic_mode profile dumb_duration w1 w2)
      (mkSim_LaneIdsOk logic_mode profile dumb_duration w1 w2)
    have h0d : dischargedIds (mkSim logic_mode profile dumb_duration w1 w2) l = [] := rfl
    have h0l : laneIds (mkSim logic_mode profile dumb_duration w1 w2) l = [] := by
      cases l <;> rfl
    rw [h0d, h0l] at h
    simpa using h
  · have hw : ∀ (lane : Lane) (t : Int) (v2 : Vehicle) (tl : List Vehicle),
        lane.vehicles = v2 :: tl →
        lane.get_longest_wait_time t = ((t - v2.creation_time : Int) : ℚ) := by
      intro lane t v2 tl hveh
      unfold Lane.get_longest_wait_time
      rw [hveh]
    obtain ⟨tl1, htl1⟩ : ∃ tl, (s2.intersection.lanes.get l).vehicles = v :: tl := by
      rcases hvs : (s2.intersection.lanes.get l).vehicles with _ | ⟨v0, tl⟩
      · rw [hvs] at hhead1
        cases hhead1
      · rw [hvs] at hhead1
        rw [List.head?_cons] at hhead1
        exact ⟨tl, by rw [Option.some.inj hhead1]⟩
    obtain ⟨tl2, htl2⟩ : ∃ tl,
        ((s2.step rand2).intersection.lanes.get l).vehicles = v :: tl := by
      rcases hvs : ((s2.step rand2).intersection.lanes.get l).vehicles with _ | ⟨v0, tl⟩
      · rw [hvs] at hhead2
        cases hhead2
      · rw [hvs] at hhead2
        rw [List.head?_cons] at hhead2
        exact ⟨tl, by rw [Option.some.inj hhead2]⟩
    rw [hw _ _ v tl1 htl1, hw _ _ v tl2 htl2, step_time]
    have hle : (s2.current_time - v.creation_time : Int) ≤
        (s2.current_time + 1 - v.creation_time : Int) := by omega
    exact_mod_cast hle

/-- Witness for C9 at a one-step run and at the concrete state wSim3,
whose south_left head car stays in place across the step. -/
theorem C9_fifo_integrity_witness :
    (dischargedIds (runSteps (mkSim "ai" balancedFlow 20 1 (mkRat 1 2))
        [fun _ => 1]) LaneId.south_left ++
      laneIds (runSteps (mkSim "ai" balancedFlow 20 1 (mkRat 1 2))
        [fun _ => 1]) LaneId.south_left =
      arrivalsAux (mkSim "ai" balancedFlow 20 1 (mkRat 1 2)) LaneId.south_left
        [fun _ => 1]) ∧
    (wSim3.intersection.lanes.get LaneId.south_left).get_longest_wait_time
        wSim3.current_time ≤
      (((wSim3.step (fun _ => 1)).intersection.lanes.get
        LaneId.south_left).get_longest_wait_time (wSim3.step (fun _ => 1)).current_time) :=
  C9_fifo_integrity "ai" balancedFlow 20 1 (mkRat 1 2) [fun _ => 1] LaneId.south_left
    wSim3 (fun _ => 1)
    { id := 1, vehicle_type := "car", creation_time := 0, turn_direction := "left" }
    (by decide) (by decide)
